import Mathlib

/-!
Verification of the graphics-state stack and instruction-recorder core of the
drawBot repository, shallowly embedded from
`src/drawBot/context/baseContext.py` (classes `GraphicsState`, `BaseContext`
and the value classes `Color`, `CMYKColor`, `Shadow`, `Gradient`,
`FormattedString`) and `src/drawBot/drawBotDrawingTools.py`
(class `DrawBotDrawingTool`).

Numeric arguments (Python floats) are modelled as rationals; the claims under
study are structural (which fields are populated, stack shape, instruction
order) and do not depend on real-number rounding.  String-valued enumeration
arguments (line join and cap names, color-space names, blend-mode names) are
modelled as closed enumerations containing every key of the corresponding
source dictionary plus one representative for an unrecognized value.
AppKit/Quartz objects (NSColor and friends) are modelled by the argument
values they were constructed from; converting an invalid combination of
arguments (which would crash inside AppKit) is modelled as an error.
-/

namespace DrawBot

abbrev Q := ℚ

/-- Error taxonomy of the embedded code: `drawBotErr` stands for a raised
`DrawBotError` (the user-facing errors of `drawBot.misc`), `typeErr` for a
Python-level `TypeError`/`AttributeError` raised by passing `None` where a
number or object is required. -/
inductive Err where
  | drawBotErr
  | typeErr
deriving DecidableEq, Repr

/-- Keys of `BaseContext._colorSpaceMap` in `baseContext.py`. -/
inductive ColorSpace where
  | genericRGB
  | adobeRGB1998
  | sRGB
  | genericGray
  | genericGamma22Gray
  | displayP3
deriving DecidableEq, Repr

/-- Argument to the `colorSpace` operation: one of the map keys or an
unrecognized name. -/
inductive ColorSpaceName where
  | genericRGB
  | adobeRGB1998
  | sRGB
  | genericGray
  | genericGamma22Gray
  | displayP3
  | unrecognized
deriving DecidableEq, Repr

/-- Lookup in `BaseContext._colorSpaceMap`; `none` models a missing key. -/
def colorSpaceMap : ColorSpaceName → Option ColorSpace
  | .genericRGB => some .genericRGB
  | .adobeRGB1998 => some .adobeRGB1998
  | .sRGB => some .sRGB
  | .genericGray => some .genericGray
  | .genericGamma22Gray => some .genericGamma22Gray
  | .displayP3 => some .displayP3
  | .unrecognized => none

/-- Values of `_LINEJOINSTYLESMAP` (Quartz line-join constants). -/
inductive LineJoinStyle where
  | kCGLineJoinMiter
  | kCGLineJoinRound
  | kCGLineJoinBevel
deriving DecidableEq, Repr

/-- Argument to `lineJoin`: a key of `_LINEJOINSTYLESMAP` or an unrecognized
string. -/
inductive LineJoinName where
  | miter
  | round
  | bevel
  | unrecognized
deriving DecidableEq, Repr

/-- Lookup in `_LINEJOINSTYLESMAP`. -/
def lineJoinMap : LineJoinName → Option LineJoinStyle
  | .miter => some .kCGLineJoinMiter
  | .round => some .kCGLineJoinRound
  | .bevel => some .kCGLineJoinBevel
  | .unrecognized => none

/-- Values of `_LINECAPSTYLESMAP` (Quartz line-cap constants). -/
inductive LineCapStyle where
  | kCGLineCapButt
  | kCGLineCapSquare
  | kCGLineCapRound
deriving DecidableEq, Repr

/-- Argument to `lineCap`: a key of `_LINECAPSTYLESMAP` or an unrecognized
string. -/
inductive LineCapName where
  | butt
  | square
  | round
  | unrecognized
deriving DecidableEq, Repr

/-- Lookup in `_LINECAPSTYLESMAP`. -/
def lineCapMap : LineCapName → Option LineCapStyle
  | .butt => some .kCGLineCapButt
  | .square => some .kCGLineCapSquare
  | .round => some .kCGLineCapRound
  | .unrecognized => none

/-- Keys of `BaseContext._blendModeMap`.  `BaseContext.blendMode` stores the
operation name without validation (validation happens at the tool level), so
the state field holds one of these names. -/
inductive BlendModeName where
  | normal | multiply | screen | overlay | darken | lighten
  | colorDodge | colorBurn | softLight | hardLight | difference | exclusion
  | hue | saturation | color | luminosity | clear | copy
  | sourceIn | sourceOut | sourceAtop | destinationOver | destinationIn
  | destinationOut | destinationAtop | xOR | plusDarker | plusLighter
deriving DecidableEq, Repr

/-- The `Color` class of `baseContext.py`, modelled by the calibrated RGBA
components the constructor feeds to
`NSColor.colorWithCalibratedRed_green_blue_alpha_`. -/
structure Color where
  r : Q
  g : Q
  b : Q
  a : Q
deriving DecidableEq, Repr

/-- `Color.__init__` branch structure for a non-`None` first component:
`Color(r)` is gray, `Color(r, g)` is gray with alpha `g`, `Color(r, g, b, a)`
is full RGBA.  A non-`None` green with `None` blue and vice versa reaches
AppKit with a `None` component and raises; that path returns `typeErr`. -/
def Color.make (r : Q) (g b : Option Q) (a : Q) : Except Err Color :=
  match g, b with
  | none, none => .ok ⟨r, r, r, a⟩
  | some g', none => .ok ⟨r, r, r, g'⟩
  | some g', some b' => .ok ⟨r, g', b', a⟩
  | none, some _ => .error .typeErr

/-- `Color.copy` duplicates the underlying `NSColor`; the duplicate holds the
same component values. -/
def Color.copy (c : Color) : Color := c

/-- The `CMYKColor` class: the `_cmyka` component tuple stored by its
constructor. -/
structure CMYKColor where
  c : Q
  m : Q
  y : Q
  k : Q
  a : Q
deriving DecidableEq, Repr

/-- `CMYKColor.__init__` with a non-`None` cyan: any remaining `None`
component crashes inside `colorWithDeviceCyan_magenta_yellow_black_alpha_`. -/
def CMYKColor.make (c : Q) (m y k : Option Q) (a : Q) : Except Err CMYKColor :=
  match m, y, k with
  | some m', some y', some k' => .ok ⟨c, m', y', k', a⟩
  | _, _, _ => .error .typeErr

/-- Value copy of a `CMYKColor` (inherited `Color.copy`). -/
def CMYKColor.copy (c : CMYKColor) : CMYKColor := c

/-- Modelled from the spec: `cmyk2rgb` lives in `drawBot/misc.py`, which is
outside `src/`; the spec treats color conversion as an out-of-scope backend
concern, so the standard naive conversion is used here.  No claim below
depends on the numeric values this function produces, only on the fact that
`cmykFill`/`cmykStroke` store a converted RGB color. -/
def cmyk2rgb (c m y k : Q) : Q × Q × Q :=
  ((1 - c) * (1 - k), (1 - m) * (1 - k), (1 - y) * (1 - k))

/-- The `Shadow` class, fields set by its constructor for a non-`None`
offset. -/
structure Shadow where
  offset : Q × Q
  blur : Q
  color : Color
  cmykColor : Option CMYKColor
deriving DecidableEq, Repr

/-- `Shadow.copy` as written in the source: offset and blur are shared,
colors are copied, `cmykColor` defaults to `None` and is copied only when
truthy. -/
def Shadow.copy (s : Shadow) : Shadow :=
  { offset := s.offset
    blur := s.blur
    color := s.color.copy
    cmykColor :=
      match s.cmykColor with
      | none => none
      | some c => some c.copy }

/-- Gradient type tag; `Gradient.__init__` accepts exactly the names
`linear` and `radial` (our call sites pass literals, so the name check always
passes). -/
inductive GradientType where
  | linear
  | radial
deriving DecidableEq, Repr

/-- The `Gradient` class fields.  `end` is a Lean keyword, hence `endP`. -/
structure Gradient where
  gradientType : GradientType
  colors : List Color
  cmykColors : Option (List CMYKColor)
  positions : List Q
  start : Q × Q
  endP : Option (Q × Q)
  startRadius : Option Q
  endRadius : Option Q
deriving DecidableEq, Repr

/-- `Gradient.__init__` for a non-`None` type: fewer than two colors raise a
`DrawBotError`; omitted positions default to the evenly spaced sequence
`i / (len(colors) - 1)`; a length mismatch between colors and positions
raises a `DrawBotError`.  The input colors are RGB triples converted through
`Color.getColorsFromList` (each becomes `Color(r, g, b)` with alpha 1). -/
def Gradient.make (ty : GradientType) (start : Q × Q) (endP : Option (Q × Q))
    (colors : Option (List (Q × Q × Q))) (locations : Option (List Q))
    (startRadius endRadius : Option Q) : Except Err Gradient :=
  match colors with
  | none => .error .drawBotErr
  | some cs =>
    if cs.length < 2 then .error .drawBotErr
    else
      let positions :=
        match locations with
        | none => (List.range cs.length).map
            (fun i => (i : Q) / ((cs.length : Q) - 1))
        | some ls => ls
      if cs.length ≠ positions.length then .error .drawBotErr
      else
        .ok { gradientType := ty
              colors := cs.map (fun t => ⟨t.1, t.2.1, t.2.2, 1⟩)
              cmykColors := none
              positions := positions
              start := start
              endP := endP
              startRadius := startRadius
              endRadius := endRadius }

/-- `Gradient.copy` from the source: per-color copies, `cmykColors` defaults
to `None`, positions list-copied, remaining fields shared. -/
def Gradient.copy (g : Gradient) : Gradient :=
  { gradientType := g.gradientType
    colors := g.colors.map Color.copy
    cmykColors :=
      match g.cmykColors with
      | none => none
      | some cs => some (cs.map CMYKColor.copy)
    positions := g.positions
    start := g.start
    endP := g.endP
    startRadius := g.startRadius
    endRadius := g.endRadius }

/-- Elements of a `BezierPath` under construction (the path operations the
claims exercise; `rect` and `oval` append a whole rectangle or oval). -/
inductive PathElt where
  | moveTo (pt : Q × Q)
  | lineTo (pt : Q × Q)
  | curveTo (h1 h2 pt : Q × Q)
  | closePath
  | rect (x y w h : Q)
  | oval (x y w h : Q)
deriving DecidableEq, Repr

/-- The slice of `FormattedString` state that the embedded operations touch:
the private attributes `_fill`, `_stroke`, `_cmykFill`, `_cmykStroke`,
`_strokeWidth` and `_fontSize`, with the defaults of
`FormattedString._formattedAttributes`.  `_fill` holds the tuple of non-`None`
components assembled by `FormattedString.fill`; `_cmykFill` holds the raw
component tuple (whose tail components may be `None`). -/
structure FormattedText where
  fill : Option (List Q)
  stroke : Option (List Q)
  cmykFill : Option (Q × Option Q × Option Q × Option Q × Q)
  cmykStroke : Option (Q × Option Q × Option Q × Option Q × Q)
  strokeWidth : Q
  fontSize : Q
deriving DecidableEq, Repr

/-- Defaults from `_formattedAttributes`: fill `(0, 0, 0)`, no stroke, no
CMYK colors, stroke width 1, font size 10. -/
def FormattedText.default : FormattedText :=
  { fill := some [0, 0, 0]
    stroke := none
    cmykFill := none
    cmykStroke := none
    strokeWidth := 1
    fontSize := 10 }

/-- `FormattedString.copy` rebuilds the object from its attribute dictionary
and then restores the color attributes verbatim, producing equal attribute
values; in this value-semantics embedding it is the identity. -/
def FormattedText.copy (t : FormattedText) : FormattedText := t

/-- `FormattedString.fill`: `None` red clears, otherwise the tuple of
non-`None` components among `(r, g, b, alpha)` is stored; the CMYK fill is
cleared unconditionally. -/
def FormattedText.setFill (t : FormattedText) (r g b : Option Q) (a : Q) :
    FormattedText :=
  { t with
    fill :=
      match r with
      | none => none
      | some _ => some (([r, g, b, some a] : List (Option Q)).filterMap id)
    cmykFill := none }

/-- `FormattedString.stroke`, symmetric to `setFill`. -/
def FormattedText.setStroke (t : FormattedText) (r g b : Option Q) (a : Q) :
    FormattedText :=
  { t with
    stroke :=
      match r with
      | none => none
      | some _ => some (([r, g, b, some a] : List (Option Q)).filterMap id)
    cmykStroke := none }

/-- `FormattedString.cmykFill`: `None` cyan clears, otherwise the raw
component tuple is stored; the plain fill is cleared unconditionally. -/
def FormattedText.setCmykFill (t : FormattedText) (c m y k : Option Q)
    (a : Q) : FormattedText :=
  { t with
    cmykFill :=
      match c with
      | none => none
      | some c' => some (c', m, y, k, a)
    fill := none }

/-- `FormattedString.cmykStroke`, symmetric to `setCmykFill`. -/
def FormattedText.setCmykStroke (t : FormattedText) (c m y k : Option Q)
    (a : Q) : FormattedText :=
  { t with
    cmykStroke :=
      match c with
      | none => none
      | some c' => some (c', m, y, k, a)
    stroke := none }

/-- The `GraphicsState` class: every mutable field initialized by
`GraphicsState.__init__`.  The `colorSpace` default reads the
process-global `Color.colorSpace` class attribute, passed in explicitly
here. -/
structure GraphicsState where
  colorSpace : ColorSpace
  blendMode : Option BlendModeName
  opacity : Q
  fillColor : Option Color
  strokeColor : Option Color
  cmykFillColor : Option CMYKColor
  cmykStrokeColor : Option CMYKColor
  shadow : Option Shadow
  gradient : Option Gradient
  strokeWidth : Q
  lineDash : Option (List Q)
  lineDashOffset : Q
  lineCap : Option LineCapStyle
  lineJoin : Option LineJoinStyle
  miterLimit : Q
  text : FormattedText
  hyphenation : Option Bool
  path : Option (List PathElt)
deriving DecidableEq, Repr

/-- `GraphicsState.__init__`: black fill (`Color(0)` is the gray
`(0, 0, 0, 1)`), no stroke, stroke width 1, miter limit 10, default text
state, no path. -/
def GraphicsState.init (globalCS : ColorSpace) : GraphicsState :=
  { colorSpace := globalCS
    blendMode := none
    opacity := 1
    fillColor := some ⟨0, 0, 0, 1⟩
    strokeColor := none
    cmykFillColor := none
    cmykStrokeColor := none
    shadow := none
    gradient := none
    strokeWidth := 1
    lineDash := none
    lineDashOffset := 0
    lineCap := none
    lineJoin := none
    miterLimit := 10
    text := FormattedText.default
    hyphenation := none
    path := none }

/-- `GraphicsState.copy`, following the source conditionals: optional members
are copied when present (truthiness tests against objects that are never
falsy when present), otherwise left at the fresh-instance default `None`;
`lineDash` is list-copied; plain fields are shared. -/
def GraphicsState.copy (s : GraphicsState) : GraphicsState :=
  { colorSpace := s.colorSpace
    blendMode := s.blendMode
    opacity := s.opacity
    fillColor :=
      match s.fillColor with
      | some c => some c.copy
      | none => none
    strokeColor :=
      match s.strokeColor with
      | some c => some c.copy
      | none => none
    cmykFillColor :=
      match s.cmykFillColor with
      | some c => some c.copy
      | none => none
    cmykStrokeColor :=
      match s.cmykStrokeColor with
      | some c => some c.copy
      | none => none
    shadow :=
      match s.shadow with
      | some sh => some sh.copy
      | none => none
    gradient :=
      match s.gradient with
      | some g => some g.copy
      | none => none
    path :=
      match s.path with
      | some p => some p
      | none => none
    text := s.text.copy
    hyphenation := s.hyphenation
    strokeWidth := s.strokeWidth
    lineCap := s.lineCap
    lineDash :=
      match s.lineDash with
      | some d => some d
      | none => none
    lineDashOffset := s.lineDashOffset
    lineJoin := s.lineJoin
    miterLimit := s.miterLimit }

/-- The `BaseContext` instance state: the saved-state stack `_stack` (top at
the head, matching Python `append`/`pop` on the right viewed from the top),
the current `_state`, the process-global `Color.colorSpace` class attribute,
and the page bookkeeping fields set by `BaseContext.__init__`. -/
structure BCtx where
  stack : List GraphicsState
  state : GraphicsState
  globalCS : ColorSpace
  width : Option Q
  height : Option Q
  hasPage : Bool
deriving DecidableEq, Repr

/-- A freshly constructed `BaseContext`: `reset` installs an empty stack, a
default state and the `genericRGB` global color space; width, height unset,
no page. -/
def BCtx.init : BCtx :=
  { stack := []
    state := GraphicsState.init .genericRGB
    globalCS := .genericRGB
    width := none
    height := none
    hasPage := false }

/-- The `BaseContext` operations the claims exercise (each mirrors the
equally named method of `baseContext.py`). -/
inductive Op where
  | save
  | restore
  | fill (r g b : Option Q) (a : Q)
  | stroke (r g b : Option Q) (a : Q)
  | cmykFill (c m y k : Option Q) (a : Q)
  | cmykStroke (c m y k : Option Q) (a : Q)
  | linearGradient (startPoint endPoint : Option (Q × Q))
      (colors : Option (List (Q × Q × Q))) (locations : Option (List Q))
  | radialGradient (startPoint endPoint : Option (Q × Q))
      (colors : Option (List (Q × Q × Q))) (locations : Option (List Q))
      (startRadius endRadius : Q)
  | shadow (offset : Option (Q × Q)) (blur : Q) (color : Q × Q × Q)
  | opacity (v : Q)
  | blendMode (operation : BlendModeName)
  | strokeWidth (v : Q)
  | miterLimit (v : Q)
  | lineJoin (join : Option LineJoinName)
  | lineCap (cap : Option LineCapName)
  | lineDash (first : Option Q) (rest : List Q) (offset : Q)
  | colorSpace (name : Option ColorSpaceName)
  | hyphenation (v : Option Bool)
  | fontSize (v : Q)
  | newPath
  | moveTo (pt : Q × Q)
  | lineTo (pt : Q × Q)
  | closePath
  | rect (x y w h : Q)
  | oval (x y w h : Q)
  | transform (m : Q × Q × Q × Q × Q × Q)
deriving DecidableEq, Repr

/-- `BaseContext.fill`: update the text sub-state, clear the CMYK fill, then
either clear the fill color (`None` red) or install the new color and clear
the gradient.  A crash while constructing the color leaves the earlier
mutations in place. -/
def BCtx.fillImpl (ctx : BCtx) (r g b : Option Q) (a : Q) :
    BCtx × Option Err :=
  let st := ctx.state
  let st := { st with text := st.text.setFill r g b a, cmykFillColor := none }
  match r with
  | none => ({ ctx with state := { st with fillColor := none } }, none)
  | some r' =>
    match Color.make r' g b a with
    | .error e => ({ ctx with state := st }, some e)
    | .ok c =>
      ({ ctx with state := { st with fillColor := some c, gradient := none } },
        none)

/-- `BaseContext.stroke`, symmetric to `fillImpl` but without a gradient
interaction. -/
def BCtx.strokeImpl (ctx : BCtx) (r g b : Option Q) (a : Q) :
    BCtx × Option Err :=
  let st := ctx.state
  let st :=
    { st with text := st.text.setStroke r g b a, cmykStrokeColor := none }
  match r with
  | none => ({ ctx with state := { st with strokeColor := none } }, none)
  | some r' =>
    match Color.make r' g b a with
    | .error e => ({ ctx with state := st }, some e)
    | .ok c =>
      ({ ctx with state := { st with strokeColor := some c } }, none)

/-- `BaseContext.cmykFill`: update the text sub-state; `None` cyan delegates
to `fill(None)`; otherwise store the CMYK color, the converted RGB fill
color, and clear the gradient. -/
def BCtx.cmykFillImpl (ctx : BCtx) (c m y k : Option Q) (a : Q) :
    BCtx × Option Err :=
  let st := ctx.state
  let ctx1 :=
    { ctx with state := { st with text := st.text.setCmykFill c m y k a } }
  match c with
  | none => ctx1.fillImpl none none none 1
  | some c' =>
    match CMYKColor.make c' m y k a with
    | .error e => (ctx1, some e)
    | .ok cc =>
      let rgb := cmyk2rgb cc.c cc.m cc.y cc.k
      let st1 := ctx1.state
      ({ ctx1 with
          state :=
            { st1 with
              cmykFillColor := some cc
              fillColor := some ⟨rgb.1, rgb.2.1, rgb.2.2, a⟩
              gradient := none } }, none)

/-- `BaseContext.cmykStroke`, symmetric to `cmykFillImpl` but without a
gradient interaction. -/
def BCtx.cmykStrokeImpl (ctx : BCtx) (c m y k : Option Q) (a : Q) :
    BCtx × Option Err :=
  let st := ctx.state
  let ctx1 :=
    { ctx with state := { st with text := st.text.setCmykStroke c m y k a } }
  match c with
  | none => ctx1.strokeImpl none none none 1
  | some c' =>
    match CMYKColor.make c' m y k a with
    | .error e => (ctx1, some e)
    | .ok cc =>
      let rgb := cmyk2rgb cc.c cc.m cc.y cc.k
      let st1 := ctx1.state
      ({ ctx1 with
          state :=
            { st1 with
              cmykStrokeColor := some cc
              strokeColor := some ⟨rgb.1, rgb.2.1, rgb.2.2, a⟩ } }, none)

/-- Apply one `BaseContext` operation.  The result pairs the context after the
call with `none` on success or the raised error; because the Python state is
mutated in place, mutations performed before a raise survive in the returned
context (this non-atomicity is exactly what some claims are about). -/
def BCtx.applyOp (ctx : BCtx) (op : Op) : BCtx × Option Err :=
  match op with
  | .save =>
    ({ ctx with stack := ctx.state.copy :: ctx.stack }, none)
  | .restore =>
    match ctx.stack with
    | [] => (ctx, some .drawBotErr)
    | s :: rest =>
      ({ ctx with stack := rest, state := s, globalCS := s.colorSpace }, none)
  | .fill r g b a => ctx.fillImpl r g b a
  | .stroke r g b a => ctx.strokeImpl r g b a
  | .cmykFill c m y k a => ctx.cmykFillImpl c m y k a
  | .cmykStroke c m y k a => ctx.cmykStrokeImpl c m y k a
  | .linearGradient sp ep colors locations =>
    match sp with
    | none =>
      let ctx1 := { ctx with state := { ctx.state with gradient := none } }
      ctx1.fillImpl (some 0) none none 1
    | some sp' =>
      match Gradient.make .linear sp' ep colors locations none none with
      | .error e => (ctx, some e)
      | .ok g =>
        let ctx1 := { ctx with state := { ctx.state with gradient := some g } }
        ctx1.fillImpl none none none 1
  | .radialGradient sp ep colors locations sr er =>
    match sp with
    | none =>
      let ctx1 := { ctx with state := { ctx.state with gradient := none } }
      ctx1.fillImpl (some 0) none none 1
    | some sp' =>
      match Gradient.make .radial sp' ep colors locations (some sr) (some er)
          with
      | .error e => (ctx, some e)
      | .ok g =>
        let ctx1 := { ctx with state := { ctx.state with gradient := some g } }
        ctx1.fillImpl none none none 1
  | .shadow offset blur color =>
    match offset with
    | none =>
      ({ ctx with state := { ctx.state with shadow := none } }, none)
    | some off =>
      ({ ctx with
          state :=
            { ctx.state with
              shadow := some
                { offset := off
                  blur := blur
                  color := ⟨color.1, color.2.1, color.2.2, 1⟩
                  cmykColor := none } } }, none)
  | .opacity v =>
    ({ ctx with state := { ctx.state with opacity := v } }, none)
  | .blendMode operation =>
    ({ ctx with state := { ctx.state with blendMode := some operation } },
      none)
  | .strokeWidth v =>
    ({ ctx with
        state :=
          { ctx.state with
            text := { ctx.state.text with strokeWidth := v }
            strokeWidth := v } }, none)
  | .miterLimit v =>
    ({ ctx with state := { ctx.state with miterLimit := v } }, none)
  | .lineJoin join =>
    let st :=
      if join = none then { ctx.state with lineJoin := none } else ctx.state
    match join with
    | none => ({ ctx with state := st }, some .drawBotErr)
    | some name =>
      match lineJoinMap name with
      | none => ({ ctx with state := st }, some .drawBotErr)
      | some style =>
        ({ ctx with state := { st with lineJoin := some style } }, none)
  | .lineCap cap =>
    let st :=
      if cap = none then { ctx.state with lineCap := none } else ctx.state
    match cap with
    | none => ({ ctx with state := st }, some .drawBotErr)
    | some name =>
      match lineCapMap name with
      | none => ({ ctx with state := st }, some .drawBotErr)
      | some style =>
        ({ ctx with state := { st with lineCap := some style } }, none)
  | .lineDash first rest offset =>
    match first with
    | none =>
      ({ ctx with state := { ctx.state with lineDash := none } }, none)
    | some f =>
      ({ ctx with
          state :=
            { ctx.state with
              lineDash := some (f :: rest)
              lineDashOffset := offset } }, none)
  | .colorSpace name =>
    let name' := name.getD .genericRGB
    match colorSpaceMap name' with
    | none => (ctx, some .drawBotErr)
    | some cs =>
      ({ ctx with
          state := { ctx.state with colorSpace := cs }
          globalCS := cs }, none)
  | .hyphenation v =>
    ({ ctx with state := { ctx.state with hyphenation := v } }, none)
  | .fontSize v =>
    ({ ctx with
        state :=
          { ctx.state with text := { ctx.state.text with fontSize := v } } },
      none)
  | .newPath =>
    ({ ctx with state := { ctx.state with path := some [] } }, none)
  | .moveTo pt =>
    match ctx.state.path with
    | none => (ctx, some .drawBotErr)
    | some p =>
      ({ ctx with state := { ctx.state with path := some (p ++ [.moveTo pt]) } },
        none)
  | .lineTo pt =>
    match ctx.state.path with
    | none => (ctx, some .typeErr)
    | some p =>
      ({ ctx with state := { ctx.state with path := some (p ++ [.lineTo pt]) } },
        none)
  | .closePath =>
    match ctx.state.path with
    | none => (ctx, some .typeErr)
    | some p =>
      ({ ctx with state := { ctx.state with path := some (p ++ [.closePath]) } },
        none)
  | .rect x y w h =>
    ({ ctx with state := { ctx.state with path := some [.rect x y w h] } },
      none)
  | .oval x y w h =>
    ({ ctx with state := { ctx.state with path := some [.oval x y w h] } },
      none)
  | .transform _ => (ctx, none)

/-- Run a list of operations, stopping (with `none`) at the first raised
error; `some ctx` means every operation succeeded. -/
def BCtx.runOps (ctx : BCtx) : List Op → Option BCtx
  | [] => some ctx
  | op :: rest =>
    match ctx.applyOp op with
    | (ctx', none) => ctx'.runOps rest
    | (_, some _) => none

/-- Shape of the programs claim C1 quantifies over: a block of `save()` calls
followed by an equal number of `restore()` calls, with arbitrary
state-mutating operations interleaved between consecutive calls (after each
`save`, before each `restore`). -/
def saveSeg (ms : List Op) : List Op := Op.save :: ms

/-- Mutations placed before one `restore` call. -/
def restSeg (ms : List Op) : List Op := ms ++ [Op.restore]

/-- The full `n` saves / `n` restores program of claim C1. -/
def nestedProg (sSegs rSegs : List (List Op)) : List Op :=
  (sSegs.map saveSeg).flatten ++ (rSegs.map restSeg).flatten

/-- Operations that never touch the saved-state stack (everything except
`save` and `restore`). -/
def Op.stackNeutral : Op → Bool
  | .save => false
  | .restore => false
  | _ => true

/-- One recorded instruction of the `DrawBotDrawingTool` log: the
`(callback, args, kwargs)` tuples appended by `_addInstruction`, for the
public calls embedded here.  A `newPage` instruction carries the possibly
unresolved width/height actually recorded by the source. -/
inductive Instr where
  | newPage (w h : Option Q)
  | rect (x y w h : Q)
  | oval (x y w h : Q)
  | fill (r g b : Option Q) (a : Q)
  | stroke (r g b : Option Q) (a : Q)
  | cmykFill (c m y k : Option Q) (a : Q)
  | cmykStroke (c m y k : Option Q) (a : Q)
  | save
  | restore
  | fontSize (v : Q)
  | frameDuration (seconds : Q)
deriving DecidableEq, Repr

/-- The `callback == "newPage"` test of `_addInstruction`. -/
def Instr.isNewPage : Instr → Bool
  | .newPage _ _ => true
  | _ => false

/-- The `DrawBotDrawingTool` session state: the page-partitioned instruction
log `_instructionsStack`, the validating `_dummyContext`, the configured
`_width`/`_height`, and the first-page bookkeeping flags; `_isSinglePage` is
`False` for the module-level tool and stays so outside `DrawBotPage`
contexts. -/
structure Tool where
  instructionsStack : List (List Instr)
  dummyContext : BCtx
  width : Option Q
  height : Option Q
  requiresNewFirstPage : Bool
  hasPage : Bool
  isSinglePage : Bool
deriving DecidableEq, Repr

/-- `DrawBotDrawingTool.__init__` / `_reset()`: empty log, fresh dummy
context, unset size, no page. -/
def Tool.init : Tool :=
  { instructionsStack := []
    dummyContext := BCtx.init
    width := none
    height := none
    requiresNewFirstPage := false
    hasPage := false
    isSinglePage := false }

/-- `DrawBotDrawingTool.width()`: the configured width, or the 1000-point
default. -/
def Tool.widthV (t : Tool) : Q :=
  match t.width with
  | none => 1000
  | some w => w

/-- `DrawBotDrawingTool.height()`, defaulting to 1000. -/
def Tool.heightV (t : Tool) : Q :=
  match t.height with
  | none => 1000
  | some h => h

/-- `DrawBotDrawingTool.pageCount()`: the length of the instruction stack. -/
def Tool.pageCount (t : Tool) : Nat := t.instructionsStack.length

/-- Apply a function to the last page group (Python mutates
`_instructionsStack[-1]`); the empty-stack case is unreachable at the call
sites, which guarantee a nonempty stack first. -/
def updateLast (l : List (List Instr)) (f : List Instr → List Instr) :
    List (List Instr) :=
  match l with
  | [] => []
  | [g] => [f g]
  | g :: rest => g :: updateLast rest f

/-- `DrawBotDrawingTool._addInstruction`: a `newPage` callback opens a new
page group; an empty log gets its first group; if a first page is required
and none exists yet, a synthetic `newPage(width(), height())` instruction is
inserted at the front of the current group and the page flag is set; finally
the instruction is appended to the current group. -/
def Tool.addInstruction (t : Tool) (i : Instr) : Tool :=
  let stack :=
    if i.isNewPage then t.instructionsStack ++ [[]] else t.instructionsStack
  let stack := if stack.isEmpty then [[]] else stack
  if t.requiresNewFirstPage && !t.hasPage then
    let stack :=
      updateLast stack
        (fun g => Instr.newPage (some t.widthV) (some t.heightV) :: g)
    { t with
        hasPage := true
        instructionsStack := updateLast stack (fun g => g ++ [i]) }
  else
    { t with instructionsStack := updateLast stack (fun g => g ++ [i]) }

/-- The public script-facing calls embedded at the tool level.  `newPage` and
`size` take numeric sizes (the paper-name and screen string shortcuts are
resolved before the logic under study and are not modelled). -/
inductive PubOp where
  | rect (x y w h : Q)
  | oval (x y w h : Q)
  | fill (r g b : Option Q) (a : Q)
  | stroke (r g b : Option Q) (a : Q)
  | cmykFill (c m y k : Option Q) (a : Q)
  | cmykStroke (c m y k : Option Q) (a : Q)
  | save
  | restore
  | newPage (w h : Option Q)
  | size (w : Q) (h : Option Q)
  | fontSize (v : Q)
  | frameDuration (seconds : Q)
deriving DecidableEq, Repr

/-- `DrawBotDrawingTool.newPage`: reject inside a single page; with no
arguments resolve both dimensions from `width()`/`height()`; store the
dimensions, mark the page as existing, replace the dummy context with a
fresh one, and record the instruction. -/
def Tool.newPageImpl (t : Tool) (w h : Option Q) : Tool × Option Err :=
  if t.isSinglePage then (t, some .drawBotErr)
  else
    let wh :=
      if w = none && h = none then (some t.widthV, some t.heightV) else (w, h)
    let t1 :=
      { t with
          width := wh.1
          height := wh.2
          hasPage := true
          dummyContext := BCtx.init }
    (t1.addInstruction (.newPage wh.1 wh.2), none)

/-- Apply one public call: the pair holds the session state after the call
and the raised error, if any.  Mutations performed before a raise survive
(the Python objects are mutated in place). -/
def Tool.applyPub (t : Tool) (op : PubOp) : Tool × Option Err :=
  match op with
  | .rect x y w h =>
    ({ t with requiresNewFirstPage := true }.addInstruction (.rect x y w h),
      none)
  | .oval x y w h =>
    ({ t with requiresNewFirstPage := true }.addInstruction (.oval x y w h),
      none)
  | .fill r g b a =>
    ({ t with requiresNewFirstPage := true }.addInstruction (.fill r g b a),
      none)
  | .stroke r g b a =>
    ({ t with requiresNewFirstPage := true }.addInstruction (.stroke r g b a),
      none)
  | .cmykFill c m y k a =>
    ({ t with requiresNewFirstPage := true }.addInstruction
        (.cmykFill c m y k a), none)
  | .cmykStroke c m y k a =>
    ({ t with requiresNewFirstPage := true }.addInstruction
        (.cmykStroke c m y k a), none)
  | .save =>
    let d := (t.dummyContext.applyOp .save).1
    ({ t with
        dummyContext := d
        requiresNewFirstPage := true }.addInstruction .save, none)
  | .restore =>
    match t.dummyContext.applyOp .restore with
    | (_, some e) => (t, some e)
    | (d, none) =>
      ({ t with
          dummyContext := d
          requiresNewFirstPage := true }.addInstruction .restore, none)
  | .newPage w h => t.newPageImpl w h
  | .size w h =>
    if t.isSinglePage then (t, some .drawBotErr)
    else
      let h' := h.getD w
      let t1 := { t with width := some w, height := some h' }
      if t1.instructionsStack.isEmpty then
        t1.newPageImpl (some w) (some h')
      else (t1, some .drawBotErr)
  | .fontSize v =>
    ({ t with
        dummyContext := (t.dummyContext.applyOp (.fontSize v)).1
      }.addInstruction (.fontSize v), none)
  | .frameDuration seconds =>
    ({ t with requiresNewFirstPage := true }.addInstruction
        (.frameDuration seconds), none)

/-- The single instruction that a successful public call appends to the log,
as a function of the pre-call session state. -/
def Tool.recordedInstr (t : Tool) (op : PubOp) : Instr :=
  match op with
  | .rect x y w h => .rect x y w h
  | .oval x y w h => .oval x y w h
  | .fill r g b a => .fill r g b a
  | .stroke r g b a => .stroke r g b a
  | .cmykFill c m y k a => .cmykFill c m y k a
  | .cmykStroke c m y k a => .cmykStroke c m y k a
  | .save => .save
  | .restore => .restore
  | .newPage w h =>
    if w = none && h = none then .newPage (some t.widthV) (some t.heightV)
    else .newPage w h
  | .size w h => .newPage (some w) (some (h.getD w))
  | .fontSize v => .fontSize v
  | .frameDuration seconds => .frameDuration seconds

/-- Run a list of public calls, stopping at the first raised error and also
returning the sequence of instructions the calls recorded, in order. -/
def Tool.runPubTr (t : Tool) : List PubOp → Option (Tool × List Instr)
  | [] => some (t, [])
  | op :: rest =>
    match t.applyPub op with
    | (t', none) =>
      (t'.runPubTr rest).map (fun p => (p.1, t.recordedInstr op :: p.2))
    | (_, some _) => none

/-- Run a list of public calls for their final session state only. -/
def Tool.runPub (t : Tool) (ops : List PubOp) : Option Tool :=
  (t.runPubTr ops).map Prod.fst

/-- `DrawBotDrawingTool.pages()`: the page groups that contain a `newPage`
instruction (the source scans each group and keeps it upon finding a
`newPage` callback anywhere in it). -/
def Tool.pagesOf (t : Tool) : List (List Instr) :=
  t.instructionsStack.filter (fun g => g.any Instr.isNewPage)

/-- Does a group start with a `newPage` instruction?  This is the membership
criterion the spec states for `pages()`. -/
def headIsNewPage (g : List Instr) : Bool :=
  match g.head? with
  | some i => i.isNewPage
  | none => false

/-- `DrawBotDrawingTool._drawInContext`: replay every page group in order,
invoking the equally named method of the backend for every recorded
instruction.  The backend is abstracted as the trace of method invocations it
receives; replay only reads the log. -/
def Tool.drawInContext (t : Tool) (backendTrace : List Instr) : List Instr :=
  t.instructionsStack.foldl
    (fun acc grp => grp.foldl (fun acc2 i => acc2 ++ [i]) acc) backendTrace

/-- Session invariant maintained by every public call: before the first page
exists the log has at most one group with no `newPage` inside; any group
containing a `newPage` instruction starts with one; groups are never
empty. -/
def ToolInv (t : Tool) : Prop :=
  (t.hasPage = false → t.instructionsStack.length ≤ 1) ∧
  (t.hasPage = false →
    ∀ g ∈ t.instructionsStack, ∀ i ∈ g, i.isNewPage = false) ∧
  (∀ g ∈ t.instructionsStack, (∃ i ∈ g, i.isNewPage = true) →
    ∃ w h, g.head? = some (Instr.newPage w h)) ∧
  (∀ g ∈ t.instructionsStack, g ≠ [])

/-- Public calls that mark the session as requiring a first page
(`self._requiresNewFirstPage = True` before recording) and record an
instruction other than `newPage`: the drawing calls of claim C3. -/
def PubOp.isDrawing : PubOp → Bool
  | .rect _ _ _ _ => true
  | .oval _ _ _ _ => true
  | .fill _ _ _ _ => true
  | .stroke _ _ _ _ => true
  | .cmykFill _ _ _ _ _ => true
  | .cmykStroke _ _ _ _ _ => true
  | .save => true
  | .restore => true
  | .frameDuration _ => true
  | _ => false

theorem color_copy_eq (c : Color) : c.copy = c := rfl

theorem cmykColor_copy_eq (c : CMYKColor) : c.copy = c := rfl

theorem shadow_copy_eq (s : Shadow) : s.copy = s := by
  cases s with
  | mk offset blur color cmykColor =>
    cases cmykColor <;> simp [Shadow.copy, Color.copy, CMYKColor.copy]

theorem gradient_copy_eq (g : Gradient) : g.copy = g := by
  cases g with
  | mk ty cs ccs pos st en sr er =>
    cases ccs <;>
      simp [Gradient.copy, show Color.copy = id from rfl,
        show CMYKColor.copy = id from rfl, List.map_id]

/-- A `GraphicsState.copy` is field-for-field equal to the original state. -/
theorem graphicsState_copy_eq (s : GraphicsState) : s.copy = s := by
  cases s with
  | mk colorSpace blendMode opacity fillColor strokeColor cmykFillColor
      cmykStrokeColor shadow gradient strokeWidth lineDash lineDashOffset
      lineCap lineJoin miterLimit text hyphenation path =>
    cases fillColor <;> cases strokeColor <;> cases cmykFillColor <;>
      cases cmykStrokeColor <;> cases shadow <;> cases gradient <;>
      cases lineDash <;> cases path <;>
      simp [GraphicsState.copy, FormattedText.copy, Color.copy,
        CMYKColor.copy, shadow_copy_eq, gradient_copy_eq]

theorem BCtx.runOps_cons_ok {ctx c : BCtx} {op : Op} {rest : List Op}
    (h : ctx.applyOp op = (c, none)) :
    ctx.runOps (op :: rest) = c.runOps rest := by
  simp [BCtx.runOps, h]

theorem BCtx.runOps_cons_err {ctx c : BCtx} {op : Op} {e : Err}
    {rest : List Op} (h : ctx.applyOp op = (c, some e)) :
    ctx.runOps (op :: rest) = none := by
  simp [BCtx.runOps, h]

theorem BCtx.runOps_append (l1 l2 : List Op) : ∀ ctx : BCtx,
    ctx.runOps (l1 ++ l2) = (ctx.runOps l1).bind (fun c => c.runOps l2) := by
  induction l1 with
  | nil => intro ctx; simp [BCtx.runOps]
  | cons op rest ih =>
    intro ctx
    rcases happ : ctx.applyOp op with ⟨c, e⟩
    cases e with
    | none =>
      rw [List.cons_append, BCtx.runOps_cons_ok happ,
        BCtx.runOps_cons_ok happ, ih]
    | some e =>
      rw [List.cons_append, BCtx.runOps_cons_err happ,
        BCtx.runOps_cons_err happ]
      rfl

theorem BCtx.fillImpl_stack (ctx : BCtx) (r g b : Option Q) (a : Q) :
    (ctx.fillImpl r g b a).1.stack = ctx.stack := by
  cases r with
  | none => rfl
  | some r' =>
    rcases h : Color.make r' g b a with e | c <;> simp [BCtx.fillImpl, h]

theorem BCtx.strokeImpl_stack (ctx : BCtx) (r g b : Option Q) (a : Q) :
    (ctx.strokeImpl r g b a).1.stack = ctx.stack := by
  cases r with
  | none => rfl
  | some r' =>
    rcases h : Color.make r' g b a with e | c <;> simp [BCtx.strokeImpl, h]

theorem BCtx.cmykFillImpl_stack (ctx : BCtx) (c m y k : Option Q) (a : Q) :
    (ctx.cmykFillImpl c m y k a).1.stack = ctx.stack := by
  cases c with
  | none => simp [BCtx.cmykFillImpl, BCtx.fillImpl_stack]
  | some c' =>
    rcases h : CMYKColor.make c' m y k a with e | cc <;>
      simp [BCtx.cmykFillImpl, h]

theorem BCtx.cmykStrokeImpl_stack (ctx : BCtx) (c m y k : Option Q) (a : Q) :
    (ctx.cmykStrokeImpl c m y k a).1.stack = ctx.stack := by
  cases c with
  | none => simp [BCtx.cmykStrokeImpl, BCtx.strokeImpl_stack]
  | some c' =>
    rcases h : CMYKColor.make c' m y k a with e | cc <;>
      simp [BCtx.cmykStrokeImpl, h]

/-- No operation other than `save`/`restore` touches the saved-state
stack. -/
theorem BCtx.applyOp_stackNeutral (ctx : BCtx) (op : Op)
    (h : op.stackNeutral = true) : (ctx.applyOp op).1.stack = ctx.stack := by
  cases op <;>
    simp_all [BCtx.applyOp, Op.stackNeutral, BCtx.fillImpl_stack,
      BCtx.strokeImpl_stack, BCtx.cmykFillImpl_stack,
      BCtx.cmykStrokeImpl_stack] <;>
    (repeat' split) <;>
    simp_all [BCtx.fillImpl_stack]

theorem BCtx.runOps_neutral_stack (seg : List Op) : ∀ (ctx ctx' : BCtx),
    (∀ op ∈ seg, op.stackNeutral = true) →
    ctx.runOps seg = some ctx' → ctx'.stack = ctx.stack := by
  induction seg with
  | nil =>
    intro ctx ctx' _ h
    simp [BCtx.runOps] at h
    rw [← h]
  | cons op rest ih =>
    intro ctx ctx' hmem hrun
    rcases happ : ctx.applyOp op with ⟨c, e⟩
    cases e with
    | none =>
      rw [BCtx.runOps_cons_ok happ] at hrun
      have hrest := ih c ctx'
        (fun o ho => hmem o (List.mem_cons_of_mem _ ho)) hrun
      have hop := BCtx.applyOp_stackNeutral ctx op (hmem op (List.mem_cons_self _ _))
      rw [happ] at hop
      rw [hrest, hop]
    | some e =>
      rw [BCtx.runOps_cons_err happ] at hrun
      exact absurd hrun (by simp)

theorem BCtx.savePhase (sSegs : List (List Op)) : ∀ (ctx ctx' : BCtx),
    (∀ seg ∈ sSegs, ∀ op ∈ seg, op.stackNeutral = true) →
    ctx.runOps ((sSegs.map saveSeg).flatten) = some ctx' →
    ∃ q : List GraphicsState, ctx'.stack = q ++ ctx.stack ∧
      q.length = sSegs.length ∧ q.getLastD ctx'.state = ctx.state := by
  induction sSegs with
  | nil =>
    intro ctx ctx' _ h
    simp [BCtx.runOps] at h
    exact ⟨[], by simp [← h]⟩
  | cons seg rest ih =>
    intro ctx ctx' hmem hrun
    simp only [List.map_cons, List.flatten_cons, saveSeg] at hrun
    have hsave : ctx.applyOp Op.save =
        ({ ctx with stack := ctx.state.copy :: ctx.stack }, none) := rfl
    rw [List.cons_append, BCtx.runOps_cons_ok hsave,
      BCtx.runOps_append] at hrun
    rcases hmid : BCtx.runOps
        { ctx with stack := ctx.state.copy :: ctx.stack } seg with _ | ctxm
    · rw [hmid] at hrun
      exact absurd hrun (by simp)
    · rw [hmid] at hrun
      simp only [Option.some_bind] at hrun
      have hstackm := BCtx.runOps_neutral_stack seg _ ctxm
        (hmem seg (List.mem_cons_self _ _)) hmid
      obtain ⟨q', hq1, hq2, hq3⟩ := ih ctxm ctx'
        (fun s hs => hmem s (List.mem_cons_of_mem _ hs)) hrun
      refine ⟨q' ++ [ctx.state.copy], ?_, ?_, ?_⟩
      · rw [hq1, hstackm]
        simp
      · simp [hq2]
      · rw [List.getLastD_concat, graphicsState_copy_eq]

theorem BCtx.restorePhase (rSegs : List (List Op)) :
    ∀ (ctx ctx' : BCtx) (q rest : List GraphicsState),
    (∀ seg ∈ rSegs, ∀ op ∈ seg, op.stackNeutral = true) →
    q.length = rSegs.length → ctx.stack = q ++ rest →
    ctx.runOps ((rSegs.map restSeg).flatten) = some ctx' →
    ctx'.state = q.getLastD ctx.state ∧ ctx'.stack = rest := by
  induction rSegs with
  | nil =>
    intro ctx ctx' q rest _ hlen hstack h
    simp [BCtx.runOps] at h
    rcases List.length_eq_zero.mp hlen with rfl
    simp at hstack
    simp [← h, hstack]
  | cons seg rSegs' ih =>
    intro ctx ctx' q rest hmem hlen hstack hrun
    simp only [List.map_cons, List.flatten_cons, restSeg] at hrun
    rw [List.append_assoc, BCtx.runOps_append] at hrun
    rcases hmid : ctx.runOps seg with _ | ctxm
    · rw [hmid] at hrun
      exact absurd hrun (by simp)
    · rw [hmid] at hrun
      simp only [Option.some_bind] at hrun
      have hstackm := BCtx.runOps_neutral_stack seg ctx ctxm
        (hmem seg (List.mem_cons_self _ _)) hmid
      rcases q with _ | ⟨q0, q1⟩
      · simp at hlen
      · have hpop : ctxm.applyOp Op.restore =
            ({ ctxm with
                stack := q1 ++ rest
                state := q0
                globalCS := q0.colorSpace }, none) := by
          have : ctxm.stack = q0 :: (q1 ++ rest) := by
            rw [hstackm, hstack]; rfl
          simp [BCtx.applyOp, this]
        rw [List.cons_append, BCtx.runOps_cons_ok hpop] at hrun
        have := ih _ ctx' q1 rest
          (fun s hs => hmem s (List.mem_cons_of_mem _ hs))
          (by simpa using hlen) rfl hrun
        rcases this with ⟨h1, h2⟩
        refine ⟨?_, h2⟩
        rw [h1, List.getLastD_cons]

/-- C1: for every graphics-state stack and every sequence of `n` `save()`
calls followed by exactly `n` `restore()` calls, with arbitrary
state-mutating operations interleaved between them, the current
`GraphicsState` after the last `restore()` is field-for-field equal to the
current `GraphicsState` immediately before the first `save()` (and the saved
stack is back to what it was), so no mutation after a `save()` is observable
after the matching `restore()`. -/
theorem C1_save_restore_roundtrip (ctx ctx' : BCtx)
    (sSegs rSegs : List (List Op))
    (hlen : sSegs.length = rSegs.length)
    (hs : ∀ seg ∈ sSegs, ∀ op ∈ seg, op.stackNeutral = true)
    (hr : ∀ seg ∈ rSegs, ∀ op ∈ seg, op.stackNeutral = true)
    (hrun : ctx.runOps (nestedProg sSegs rSegs) = some ctx') :
    ctx'.state = ctx.state ∧ ctx'.stack = ctx.stack := by
  unfold nestedProg at hrun
  rw [BCtx.runOps_append] at hrun
  rcases hmid : ctx.runOps (sSegs.map saveSeg).flatten with _ | ctx1
  · rw [hmid] at hrun
    exact absurd hrun (by simp)
  · rw [hmid] at hrun
    simp only [Option.some_bind] at hrun
    obtain ⟨q, hq1, hq2, hq3⟩ := BCtx.savePhase sSegs ctx ctx1 hs hmid
    obtain ⟨h1, h2⟩ := BCtx.restorePhase rSegs ctx1 ctx' q ctx.stack hr
      (by rw [hq2, hlen]) hq1 hrun
    exact ⟨by rw [h1, hq3], h2⟩

/-- Witness for C1: `save(); fill(1, 0, 0); restore()` on a fresh context
restores the exact pre-save state (black fill), with the stack back to
empty. -/
theorem C1_save_restore_roundtrip_witness :
    ∃ ctx' : BCtx,
      BCtx.init.runOps
        (nestedProg [[Op.fill (some 1) (some 0) (some 0) 1]] [[]]) =
        some ctx' ∧
      ctx'.state = BCtx.init.state ∧ ctx'.stack = BCtx.init.stack := by
  rcases h : BCtx.init.runOps
      (nestedProg [[Op.fill (some 1) (some 0) (some 0) 1]] [[]]) with _ | ctx'
  · exact absurd h (by decide)
  · exact ⟨ctx', rfl,
      C1_save_restore_roundtrip BCtx.init ctx'
        [[Op.fill (some 1) (some 0) (some 0) 1]] [[]] rfl
        (by decide) (by decide) h⟩

/-- C9: `lineJoin(None)` and `lineCap(None)` always raise a `DrawBotError`,
but only after the corresponding field of the current state has already been
set to `None`: the failing call mutates the state it errors out of. -/
theorem C9_lineJoin_lineCap_none_mutates_then_raises (ctx : BCtx) :
    ctx.applyOp (Op.lineJoin none) =
      ({ ctx with state := { ctx.state with lineJoin := none } },
        some Err.drawBotErr) ∧
    ctx.applyOp (Op.lineCap none) =
      ({ ctx with state := { ctx.state with lineCap := none } },
        some Err.drawBotErr) :=
  ⟨rfl, rfl⟩

/-- C4: RGB `fill` with a non-`None` color clears the CMYK fill and the
gradient and installs a plain fill; `linearGradient`/`radialGradient` with a
valid descriptor install the gradient and clear the plain fill (and the CMYK
fill); and in the spec example `linearGradient(...)` followed by
`fill(1, 0, 0)` the active fill mode is plain fill, not gradient.  After each
of these calls exactly one of plain fill and gradient is populated. -/
theorem C4_fill_gradient_mutual_exclusion :
    (∀ (ctx : BCtx) (r : Q) (g b : Option Q) (a : Q) (c : Color),
      Color.make r g b a = .ok c →
      (ctx.applyOp (Op.fill (some r) g b a)).2 = none ∧
      (ctx.applyOp (Op.fill (some r) g b a)).1.state.fillColor = some c ∧
      (ctx.applyOp (Op.fill (some r) g b a)).1.state.cmykFillColor = none ∧
      (ctx.applyOp (Op.fill (some r) g b a)).1.state.gradient = none) ∧
    (∀ (ctx : BCtx) (sp : Q × Q) (ep : Option (Q × Q))
      (colors : Option (List (Q × Q × Q))) (locs : Option (List Q))
      (gr : Gradient),
      Gradient.make .linear sp ep colors locs none none = .ok gr →
      (ctx.applyOp (Op.linearGradient (some sp) ep colors locs)).2 = none ∧
      (ctx.applyOp (Op.linearGradient (some sp) ep colors locs)).1.state.gradient
        = some gr ∧
      (ctx.applyOp (Op.linearGradient (some sp) ep colors locs)).1.state.fillColor
        = none ∧
      (ctx.applyOp (Op.linearGradient (some sp) ep colors locs)).1.state.cmykFillColor
        = none) ∧
    (∀ (ctx : BCtx) (sp : Q × Q) (ep : Option (Q × Q))
      (colors : Option (List (Q × Q × Q))) (locs : Option (List Q))
      (sr er : Q) (gr : Gradient),
      Gradient.make .radial sp ep colors locs (some sr) (some er) = .ok gr →
      (ctx.applyOp (Op.radialGradient (some sp) ep colors locs sr er)).2 = none ∧
      (ctx.applyOp (Op.radialGradient (some sp) ep colors locs sr er)).1.state.gradient
        = some gr ∧
      (ctx.applyOp (Op.radialGradient (some sp) ep colors locs sr er)).1.state.fillColor
        = none ∧
      (ctx.applyOp (Op.radialGradient (some sp) ep colors locs sr er)).1.state.cmykFillColor
        = none) ∧
    (∀ (ctx : BCtx) (sp : Q × Q) (ep : Option (Q × Q))
      (colors : Option (List (Q × Q × Q))) (locs : Option (List Q)),
      (((ctx.applyOp
          (Op.linearGradient (some sp) ep colors locs)).1.applyOp
            (Op.fill (some 1) (some 0) (some 0) 1)).1.state.fillColor
        = some ⟨1, 0, 0, 1⟩ ∧
       ((ctx.applyOp
          (Op.linearGradient (some sp) ep colors locs)).1.applyOp
            (Op.fill (some 1) (some 0) (some 0) 1)).1.state.gradient
        = none)) := by
  refine ⟨?_, ?_, ?_, ?_⟩
  · intro ctx r g b a c h
    simp [BCtx.applyOp, BCtx.fillImpl, h]
  · intro ctx sp ep colors locs gr h
    simp [BCtx.applyOp, BCtx.fillImpl, h]
  · intro ctx sp ep colors locs sr er gr h
    simp [BCtx.applyOp, BCtx.fillImpl, h]
  · intro ctx sp ep colors locs
    have hfill : ∀ ctx1 : BCtx,
        (ctx1.applyOp (Op.fill (some 1) (some 0) (some 0) 1)).1.state.fillColor
          = some ⟨1, 0, 0, 1⟩ ∧
        (ctx1.applyOp (Op.fill (some 1) (some 0) (some 0) 1)).1.state.gradient
          = none := by
      intro ctx1
      simp [BCtx.applyOp, BCtx.fillImpl, Color.make]
    exact hfill _

/-- Witness for C4: concrete fill and gradient calls on a fresh context. -/
theorem C4_fill_gradient_mutual_exclusion_witness :
    ((BCtx.init.applyOp (Op.fill (some 1) (some 0) (some 0) 1)).1.state.gradient
      = none) ∧
    ((BCtx.init.applyOp
        (Op.linearGradient (some (0, 0)) (some (1, 1))
          (some [(1, 0, 0), (0, 0, 1)]) (some [0, 1]))).1.state.fillColor
      = none) ∧
    ((BCtx.init.applyOp
        (Op.radialGradient (some (0, 0)) (some (1, 1))
          (some [(1, 0, 0), (0, 0, 1)]) (some [0, 1]) 0 100)).1.state.gradient
      ≠ none) := by
  refine ⟨?_, ?_, ?_⟩
  · exact (C4_fill_gradient_mutual_exclusion.1 BCtx.init 1 (some 0) (some 0) 1
      ⟨1, 0, 0, 1⟩ rfl).2.2.2
  · exact (C4_fill_gradient_mutual_exclusion.2.1 BCtx.init (0, 0)
      (some (1, 1)) (some [(1, 0, 0), (0, 0, 1)]) (some [0, 1])
      { gradientType := .linear
        colors := [⟨1, 0, 0, 1⟩, ⟨0, 0, 1, 1⟩]
        cmykColors := none
        positions := [0, 1]
        start := (0, 0)
        endP := some (1, 1)
        startRadius := none
        endRadius := none } rfl).2.2.1
  · have := (C4_fill_gradient_mutual_exclusion.2.2.1 BCtx.init (0, 0)
      (some (1, 1)) (some [(1, 0, 0), (0, 0, 1)]) (some [0, 1]) 0 100
      { gradientType := .radial
        colors := [⟨1, 0, 0, 1⟩, ⟨0, 0, 1, 1⟩]
        cmykColors := none
        positions := [0, 1]
        start := (0, 0)
        endP := some (1, 1)
        startRadius := some 0
        endRadius := some 100 } rfl).2.1
    rw [this]
    simp

/-- C7 counterexample: after `cmykFill(1, 0, 0, 0)` on a fresh context both
the CMYK fill color and the RGB fill color are populated (the source stores
the converted RGB color alongside the CMYK one), refuting the claim that the
two representations are never simultaneously non-`None`. -/
theorem C7_counterexample :
    (BCtx.init.applyOp
      (Op.cmykFill (some 1) (some 0) (some 0) (some 0) 1)).1.state.cmykFillColor
      ≠ none ∧
    (BCtx.init.applyOp
      (Op.cmykFill (some 1) (some 0) (some 0) (some 0) 1)).1.state.fillColor
      ≠ none := by
  decide

/-- C7 amended: `fill` with a non-`None` color clears the CMYK fill (and
`stroke` the CMYK stroke), but `cmykFill` populates both the CMYK fill color
and the RGB fill color (the converted color); the strict one-of-two
population holds only inside the text sub-state, where `cmykFill` clears the
plain fill attribute and vice versa.  Symmetrically for the stroke role. -/
theorem C7_rgb_cmyk_population :
    (∀ (ctx : BCtx) (r : Q) (g b : Option Q) (a : Q) (c : Color),
      Color.make r g b a = .ok c →
      (ctx.applyOp (Op.fill (some r) g b a)).1.state.fillColor = some c ∧
      (ctx.applyOp (Op.fill (some r) g b a)).1.state.cmykFillColor = none ∧
      (ctx.applyOp (Op.fill (some r) g b a)).1.state.text.cmykFill = none) ∧
    (∀ (ctx : BCtx) (r : Q) (g b : Option Q) (a : Q) (c : Color),
      Color.make r g b a = .ok c →
      (ctx.applyOp (Op.stroke (some r) g b a)).1.state.strokeColor = some c ∧
      (ctx.applyOp (Op.stroke (some r) g b a)).1.state.cmykStrokeColor = none ∧
      (ctx.applyOp (Op.stroke (some r) g b a)).1.state.text.cmykStroke = none) ∧
    (∀ (ctx : BCtx) (c : Q) (m y k : Option Q) (a : Q) (cc : CMYKColor),
      CMYKColor.make c m y k a = .ok cc →
      (ctx.applyOp (Op.cmykFill (some c) m y k a)).2 = none ∧
      (ctx.applyOp (Op.cmykFill (some c) m y k a)).1.state.cmykFillColor
        = some cc ∧
      (ctx.applyOp (Op.cmykFill (some c) m y k a)).1.state.fillColor.isSome ∧
      (ctx.applyOp (Op.cmykFill (some c) m y k a)).1.state.text.cmykFill.isSome ∧
      (ctx.applyOp (Op.cmykFill (some c) m y k a)).1.state.text.fill = none) ∧
    (∀ (ctx : BCtx) (c : Q) (m y k : Option Q) (a : Q) (cc : CMYKColor),
      CMYKColor.make c m y k a = .ok cc →
      (ctx.applyOp (Op.cmykStroke (some c) m y k a)).2 = none ∧
      (ctx.applyOp (Op.cmykStroke (some c) m y k a)).1.state.cmykStrokeColor
        = some cc ∧
      (ctx.applyOp (Op.cmykStroke (some c) m y k a)).1.state.strokeColor.isSome ∧
      (ctx.applyOp (Op.cmykStroke (some c) m y k a)).1.state.text.cmykStroke.isSome ∧
      (ctx.applyOp (Op.cmykStroke (some c) m y k a)).1.state.text.stroke
        = none) := by
  refine ⟨?_, ?_, ?_, ?_⟩
  · intro ctx r g b a c h
    simp [BCtx.applyOp, BCtx.fillImpl, FormattedText.setFill, h]
  · intro ctx r g b a c h
    simp [BCtx.applyOp, BCtx.strokeImpl, FormattedText.setStroke, h]
  · intro ctx c m y k a cc h
    simp [BCtx.applyOp, BCtx.cmykFillImpl, FormattedText.setCmykFill, h]
  · intro ctx c m y k a cc h
    simp [BCtx.applyOp, BCtx.cmykStrokeImpl, FormattedText.setCmykStroke, h]

/-- Witness for the amended C7 at concrete colors. -/
theorem C7_rgb_cmyk_population_witness :
    ((BCtx.init.applyOp (Op.fill (some 1) (some 0) (some 0) 1)).1.state.cmykFillColor
      = none) ∧
    ((BCtx.init.applyOp
        (Op.cmykFill (some 1) (some 0) (some 0) (some 0) 1)).1.state.cmykFillColor
      = some ⟨1, 0, 0, 0, 1⟩) ∧
    ((BCtx.init.applyOp
        (Op.cmykFill (some 1) (some 0) (some 0) (some 0) 1)).1.state.text.fill
      = none) := by
  refine ⟨?_, ?_, ?_⟩
  · exact (C7_rgb_cmyk_population.1 BCtx.init 1 (some 0) (some 0) 1
      ⟨1, 0, 0, 1⟩ rfl).2.1
  · exact (C7_rgb_cmyk_population.2.2.1 BCtx.init 1 (some 0) (some 0) (some 0)
      1 ⟨1, 0, 0, 0, 1⟩ rfl).2.1
  · exact (C7_rgb_cmyk_population.2.2.1 BCtx.init 1 (some 0) (some 0) (some 0)
      1 ⟨1, 0, 0, 0, 1⟩ rfl).2.2.2.2

theorem updateLast_eq (l : List (List Instr)) (f : List Instr → List Instr)
    (h : l ≠ []) : updateLast l f = l.dropLast ++ [f (l.getLast h)] := by
  induction l with
  | nil => exact absurd rfl h
  | cons g rest ih =>
    cases rest with
    | nil => simp [updateLast]
    | cons g2 rest2 =>
      have : updateLast (g :: g2 :: rest2) f = g :: updateLast (g2 :: rest2) f
        := rfl
      rw [this, ih (by simp)]
      simp [List.getLast_cons]

/-- Shape of `_addInstruction` for a `newPage` callback when no synthetic
page fires: a fresh singleton group is appended. -/
theorem Tool.addInstruction_newPage_shape (t : Tool) (i : Instr)
    (hi : i.isNewPage = true)
    (hcond : (t.requiresNewFirstPage && !t.hasPage) = false) :
    t.addInstruction i =
      { t with instructionsStack := t.instructionsStack ++ [[i]] } := by
  unfold Tool.addInstruction
  rw [hi, hcond]
  simp only [if_true, Bool.false_eq_true, if_false]
  have hne : t.instructionsStack ++ [[]] ≠ ([] : List (List Instr)) := by simp
  have hemp : (t.instructionsStack ++ [[]]).isEmpty = false := by
    rcases t.instructionsStack with _ | ⟨a, r⟩ <;> rfl
  rw [hemp]
  simp only [Bool.false_eq_true, if_false]
  rw [updateLast_eq _ _ hne]
  simp

/-- Shape of `_addInstruction` for a non-`newPage` callback on an empty log
with no synthetic page: the instruction opens the first group. -/
theorem Tool.addInstruction_first_shape (t : Tool) (i : Instr)
    (hi : i.isNewPage = false) (hs : t.instructionsStack = [])
    (hcond : (t.requiresNewFirstPage && !t.hasPage) = false) :
    t.addInstruction i = { t with instructionsStack := [[i]] } := by
  unfold Tool.addInstruction
  rw [hi, hcond, hs]
  rfl

/-- Shape of `_addInstruction` for a non-`newPage` callback on a nonempty
log with no synthetic page: the instruction is appended to the last
group. -/
theorem Tool.addInstruction_append_shape (t : Tool) (i : Instr)
    (hi : i.isNewPage = false) (hs : t.instructionsStack ≠ [])
    (hcond : (t.requiresNewFirstPage && !t.hasPage) = false) :
    t.addInstruction i =
      { t with
          instructionsStack :=
            t.instructionsStack.dropLast ++
              [t.instructionsStack.getLast hs ++ [i]] } := by
  unfold Tool.addInstruction
  rw [hi, hcond]
  simp only [Bool.false_eq_true, if_false]
  have hemp : t.instructionsStack.isEmpty = false := by
    rcases h2 : t.instructionsStack with _ | ⟨a, r⟩
    · exact absurd h2 hs
    · rfl
  rw [hemp]
  simp only [Bool.false_eq_true, if_false]
  rw [updateLast_eq _ _ hs]

/-- Shape of `_addInstruction` when the synthetic first page fires on an
empty log. -/
theorem Tool.addInstruction_synth_nil_shape (t : Tool) (i : Instr)
    (hi : i.isNewPage = false) (hs : t.instructionsStack = [])
    (hcond : (t.requiresNewFirstPage && !t.hasPage) = true) :
    t.addInstruction i =
      { t with
          hasPage := true
          instructionsStack :=
            [[Instr.newPage (some t.widthV) (some t.heightV), i]] } := by
  unfold Tool.addInstruction
  rw [hi, hcond, hs]
  rfl

/-- Shape of `_addInstruction` when the synthetic first page fires on a log
holding a single group: the synthetic `newPage` is inserted at the front of
that group. -/
theorem Tool.addInstruction_synth_one_shape (t : Tool) (i : Instr)
    (g : List Instr) (hi : i.isNewPage = false)
    (hs : t.instructionsStack = [g])
    (hcond : (t.requiresNewFirstPage && !t.hasPage) = true) :
    t.addInstruction i =
      { t with
          hasPage := true
          instructionsStack :=
            [Instr.newPage (some t.widthV) (some t.heightV) :: g ++ [i]] } := by
  unfold Tool.addInstruction
  rw [hi, hcond, hs]
  rfl

/-- Recording one non-`newPage` instruction: the invariant is preserved,
width and height are untouched, and the flattened log either gains the
instruction at its end (no synthetic page) or additionally gains the
synthetic default `newPage` at its very front (synthetic page fired). -/
theorem Tool.step_record (t : Tool) (i : Instr) (hinv : ToolInv t)
    (hnp : i.isNewPage = false) :
    ToolInv (t.addInstruction i) ∧
    (t.addInstruction i).width = t.width ∧
    (t.addInstruction i).height = t.height ∧
    ((t.requiresNewFirstPage && !t.hasPage) = false →
      (t.addInstruction i).hasPage = t.hasPage ∧
      (t.addInstruction i).instructionsStack.flatten =
        t.instructionsStack.flatten ++ [i]) ∧
    ((t.requiresNewFirstPage && !t.hasPage) = true →
      t.hasPage = false ∧ (t.addInstruction i).hasPage = true ∧
      (t.addInstruction i).instructionsStack.flatten =
        Instr.newPage (some t.widthV) (some t.heightV) ::
          (t.instructionsStack.flatten ++ [i])) := by
  obtain ⟨hinv1, hinv2, hinv3, hinv4⟩ := hinv
  cases hcond : (t.requiresNewFirstPage && !t.hasPage) with
  | false =>
    rcases hs : t.instructionsStack with _ | ⟨g0, rest0⟩
    · rw [Tool.addInstruction_first_shape t i hnp hs hcond]
      refine ⟨⟨?_, ?_, ?_, ?_⟩, rfl, rfl, ?_, ?_⟩
      · intro _; simp
      · intro _ g hg j hj
        simp at hg
        subst hg
        simp at hj
        subst hj
        exact hnp
      · intro g hg hex
        simp at hg
        subst hg
        rcases hex with ⟨j, hj, hjnp⟩
        simp at hj
        subst hj
        rw [hnp] at hjnp
        exact absurd hjnp (by simp)
      · intro g hg
        simp at hg
        subst hg
        simp
      · intro _
        simp [hs]
      · intro hcontra
        exact absurd hcontra (by simp)
    · have hne : t.instructionsStack ≠ [] := by rw [hs]; simp
      rw [Tool.addInstruction_append_shape t i hnp hne hcond]
      have hlast := List.getLast_mem hne
      have hlast_ne := hinv4 _ hlast
      have hflat : t.instructionsStack.flatten =
          t.instructionsStack.dropLast.flatten ++
            t.instructionsStack.getLast hne := by
        conv_lhs => rw [← List.dropLast_append_getLast hne]
        simp
      have hmem : ∀ g' ∈ t.instructionsStack.dropLast ++
          [t.instructionsStack.getLast hne ++ [i]],
          g' ∈ t.instructionsStack.dropLast ∨
            g' = t.instructionsStack.getLast hne ++ [i] := by
        intro g' hg'
        simpa using hg'
      refine ⟨⟨?_, ?_, ?_, ?_⟩, rfl, rfl, ?_, ?_⟩
      · intro hp
        have := hinv1 hp
        simp only [List.length_append, List.length_dropLast,
          List.length_cons, List.length_nil]
        omega
      · intro hp g' hg' j hj
        rcases hmem g' hg' with hg2 | hg2
        · exact hinv2 hp g' (List.dropLast_subset _ hg2) j hj
        · subst hg2
          rcases List.mem_append.mp hj with hj2 | hj2
          · exact hinv2 hp _ hlast j hj2
          · simp at hj2
            subst hj2
            exact hnp
      · intro g' hg' hex
        rcases hmem g' hg' with hg2 | hg2
        · exact hinv3 g' (List.dropLast_subset _ hg2) hex
        · subst hg2
          rcases hex with ⟨j, hj, hjnp⟩
          rcases List.mem_append.mp hj with hj2 | hj2
          · obtain ⟨w, h, hw⟩ := hinv3 _ hlast ⟨j, hj2, hjnp⟩
            refine ⟨w, h, ?_⟩
            rcases hl : t.instructionsStack.getLast hne with _ | ⟨a, l⟩
            · exact absurd hl hlast_ne
            · rw [hl] at hw
              simpa using hw
          · simp at hj2
            subst hj2
            rw [hnp] at hjnp
            exact absurd hjnp (by simp)
      · intro g' hg'
        rcases hmem g' hg' with hg2 | hg2
        · exact hinv4 g' (List.dropLast_subset _ hg2)
        · subst hg2
          simp
      · intro _
        refine ⟨rfl, ?_⟩
        rw [← hs, hflat]
        simp
      · intro hcontra
        exact absurd hcontra (by simp)
  | true =>
    have hhp : t.hasPage = false := by
      cases hp : t.hasPage
      · rfl
      · rw [hp] at hcond
        simp at hcond
    have hlen := hinv1 hhp
    rcases hs : t.instructionsStack with _ | ⟨g0, rest0⟩
    · rw [Tool.addInstruction_synth_nil_shape t i hnp hs hcond]
      refine ⟨⟨?_, ?_, ?_, ?_⟩, rfl, rfl, ?_, ?_⟩
      · intro hp; simp at hp
      · intro hp; simp at hp
      · intro g hg _
        simp at hg
        subst hg
        exact ⟨some t.widthV, some t.heightV, rfl⟩
      · intro g hg
        simp at hg
        subst hg
        simp
      · intro hcontra
        exact absurd hcontra (by simp)
      · intro _
        exact ⟨hhp, rfl, by simp [hs]⟩
    · rcases rest0 with _ | ⟨g1, rest1⟩
      · rw [Tool.addInstruction_synth_one_shape t i g0 hnp hs hcond]
        refine ⟨⟨?_, ?_, ?_, ?_⟩, rfl, rfl, ?_, ?_⟩
        · intro hp; simp at hp
        · intro hp; simp at hp
        · intro g hg _
          simp at hg
          subst hg
          exact ⟨some t.widthV, some t.heightV, rfl⟩
        · intro g hg
          simp at hg
          subst hg
          simp
        · intro hcontra
          exact absurd hcontra (by simp)
        · intro _
          exact ⟨hhp, rfl, by simp [hs]⟩
      · rw [hs] at hlen
        simp at hlen

/-- `newPage` (public) on success: the invariant holds, a page exists, the
log gains exactly one new singleton group holding the recorded `newPage`
instruction. -/
theorem Tool.newPageImpl_step (t : Tool) (w h : Option Q) (t' : Tool)
    (hinv : ToolInv t) (hres : t.newPageImpl w h = (t', none)) :
    ToolInv t' ∧ t'.hasPage = true ∧
    t'.instructionsStack.flatten =
      t.instructionsStack.flatten ++ [t.recordedInstr (PubOp.newPage w h)] ∧
    t'.instructionsStack.length = t.instructionsStack.length + 1 := by
  obtain ⟨hinv1, hinv2, hinv3, hinv4⟩ := hinv
  cases hsp : t.isSinglePage with
  | true =>
    unfold Tool.newPageImpl at hres
    rw [hsp] at hres
    simp at hres
  | false =>
    unfold Tool.newPageImpl at hres
    rw [hsp] at hres
    simp only [Bool.false_eq_true, if_false] at hres
    set wh := if (decide (w = none) && decide (h = none)) = true
      then (some t.widthV, some t.heightV) else (w, h) with hwh
    set t1 : Tool := { t with dummyContext := BCtx.init, width := wh.1, height := wh.2, hasPage := true, isSinglePage := false } with ht1
    have hshape := Tool.addInstruction_newPage_shape t1
      (.newPage wh.1 wh.2) rfl (by simp [ht1])
    rw [hshape] at hres
    have ht' : t' = { t1 with instructionsStack := t1.instructionsStack ++ [[Instr.newPage wh.1 wh.2]] } := by
      have := congrArg Prod.fst hres
      simpa using this.symm
    subst ht'
    have hrec : t.recordedInstr (PubOp.newPage w h) =
        Instr.newPage wh.1 wh.2 := by
      unfold Tool.recordedInstr
      rw [hwh]
      cases hc : (decide (w = none) && decide (h = none)) <;> simp [hc]
    refine ⟨⟨?_, ?_, ?_, ?_⟩, rfl, ?_, ?_⟩
    · intro hp; simp [ht1] at hp
    · intro hp; simp [ht1] at hp
    · intro g hg hex
      simp only [ht1] at hg
      rcases List.mem_append.mp hg with hg2 | hg2
      · exact hinv3 g hg2 hex
      · simp at hg2
        subst hg2
        exact ⟨wh.1, wh.2, rfl⟩
    · intro g hg
      simp only [ht1] at hg
      rcases List.mem_append.mp hg with hg2 | hg2
      · exact hinv4 g hg2
      · simp at hg2
        subst hg2
        simp
    · rw [hrec]
      simp [ht1]
    · simp [ht1]

/-- Recording a non-`newPage` instruction through `applyPub`'s common shape
(set the page flag, possibly replace the dummy context, then
`_addInstruction`). -/
theorem Tool.step_record_pub (t : Tool) (i : Instr) (flag : Bool) (d : BCtx)
    (hinv : ToolInv t) (hnp : i.isNewPage = false) :
    ToolInv (({ t with requiresNewFirstPage := flag, dummyContext := d } : Tool).addInstruction i) ∧
    (t.hasPage = true →
      (({ t with requiresNewFirstPage := flag, dummyContext := d } : Tool).addInstruction i).hasPage = true) ∧
    ((({ t with requiresNewFirstPage := flag, dummyContext := d } : Tool).addInstruction i).hasPage = false →
      (({ t with requiresNewFirstPage := flag, dummyContext := d } : Tool).addInstruction i).width = t.width ∧
      (({ t with requiresNewFirstPage := flag, dummyContext := d } : Tool).addInstruction i).height = t.height) ∧
    ((({ t with requiresNewFirstPage := flag, dummyContext := d } : Tool).addInstruction i).instructionsStack.flatten
        = t.instructionsStack.flatten ++ [i] ∨
      (t.hasPage = false ∧
      (({ t with requiresNewFirstPage := flag, dummyContext := d } : Tool).addInstruction i).hasPage = true ∧
      (({ t with requiresNewFirstPage := flag, dummyContext := d } : Tool).addInstruction i).instructionsStack.flatten
        = Instr.newPage (some t.widthV) (some t.heightV) ::
            (t.instructionsStack.flatten ++ [i]))) := by
  set t1 : Tool := { t with requiresNewFirstPage := flag, dummyContext := d } with ht1
  have hinvt1 : ToolInv t1 := hinv
  obtain ⟨sinv, swidth, sheight, sfalse, strue⟩ :=
    Tool.step_record t1 i hinvt1 hnp
  refine ⟨sinv, ?_, ?_, ?_⟩
  · intro hp
    cases hc : (t1.requiresNewFirstPage && !t1.hasPage) with
    | false => rw [(sfalse hc).1]; exact hp
    | true =>
      obtain ⟨hf, _, _⟩ := strue hc
      rw [show t1.hasPage = t.hasPage from rfl] at hf
      rw [hp] at hf
      exact absurd hf (by simp)
  · intro _
    exact ⟨swidth, sheight⟩
  · cases hc : (t1.requiresNewFirstPage && !t1.hasPage) with
    | false => exact Or.inl (sfalse hc).2
    | true =>
      obtain ⟨hf, hp, hfl⟩ := strue hc
      exact Or.inr ⟨hf, hp, hfl⟩

/-- One successful public call: the invariant is preserved, page existence
is monotone, width and height are stable while no page exists, and the
flattened log gains the recorded instruction at the end, possibly preceded
(when no page existed) by the synthetic first page at the very front. -/
theorem Tool.applyPub_step (t t' : Tool) (op : PubOp) (hinv : ToolInv t)
    (h : t.applyPub op = (t', none)) :
    ToolInv t' ∧ (t.hasPage = true → t'.hasPage = true) ∧
    (t'.hasPage = false → t'.width = t.width ∧ t'.height = t.height) ∧
    (t'.instructionsStack.flatten =
        t.instructionsStack.flatten ++ [t.recordedInstr op] ∨
      (t.hasPage = false ∧ t'.hasPage = true ∧
        t'.instructionsStack.flatten =
          Instr.newPage (some t.widthV) (some t.heightV) ::
            (t.instructionsStack.flatten ++ [t.recordedInstr op]))) := by
  cases op with
  | rect x y w0 h0 =>
    have ht' : t' = ({ t with requiresNewFirstPage := true, dummyContext := t.dummyContext } : Tool).addInstruction (.rect x y w0 h0) := by
      have := congrArg Prod.fst h
      simpa [Tool.applyPub] using this.symm
    subst ht'
    exact Tool.step_record_pub t _ true t.dummyContext hinv rfl
  | oval x y w0 h0 =>
    have ht' : t' = ({ t with requiresNewFirstPage := true, dummyContext := t.dummyContext } : Tool).addInstruction (.oval x y w0 h0) := by
      have := congrArg Prod.fst h
      simpa [Tool.applyPub] using this.symm
    subst ht'
    exact Tool.step_record_pub t _ true t.dummyContext hinv rfl
  | fill r g b a =>
    have ht' : t' = ({ t with requiresNewFirstPage := true, dummyContext := t.dummyContext } : Tool).addInstruction (.fill r g b a) := by
      have := congrArg Prod.fst h
      simpa [Tool.applyPub] using this.symm
    subst ht'
    exact Tool.step_record_pub t _ true t.dummyContext hinv rfl
  | stroke r g b a =>
    have ht' : t' = ({ t with requiresNewFirstPage := true, dummyContext := t.dummyContext } : Tool).addInstruction (.stroke r g b a) := by
      have := congrArg Prod.fst h
      simpa [Tool.applyPub] using this.symm
    subst ht'
    exact Tool.step_record_pub t _ true t.dummyContext hinv rfl
  | cmykFill c m y k a =>
    have ht' : t' = ({ t with requiresNewFirstPage := true, dummyContext := t.dummyContext } : Tool).addInstruction (.cmykFill c m y k a) := by
      have := congrArg Prod.fst h
      simpa [Tool.applyPub] using this.symm
    subst ht'
    exact Tool.step_record_pub t _ true t.dummyContext hinv rfl
  | cmykStroke c m y k a =>
    have ht' : t' = ({ t with requiresNewFirstPage := true, dummyContext := t.dummyContext } : Tool).addInstruction (.cmykStroke c m y k a) := by
      have := congrArg Prod.fst h
      simpa [Tool.applyPub] using this.symm
    subst ht'
    exact Tool.step_record_pub t _ true t.dummyContext hinv rfl
  | frameDuration seconds =>
    have ht' : t' = ({ t with requiresNewFirstPage := true, dummyContext := t.dummyContext } : Tool).addInstruction (.frameDuration seconds) := by
      have := congrArg Prod.fst h
      simpa [Tool.applyPub] using this.symm
    subst ht'
    exact Tool.step_record_pub t _ true t.dummyContext hinv rfl
  | fontSize v =>
    have ht' : t' = ({ t with requiresNewFirstPage := t.requiresNewFirstPage, dummyContext := (t.dummyContext.applyOp (.fontSize v)).1 } : Tool).addInstruction (.fontSize v) := by
      have := congrArg Prod.fst h
      simpa [Tool.applyPub] using this.symm
    subst ht'
    exact Tool.step_record_pub t _ t.requiresNewFirstPage _ hinv rfl
  | save =>
    have ht' : t' = ({ t with requiresNewFirstPage := true, dummyContext := (t.dummyContext.applyOp Op.save).1 } : Tool).addInstruction .save := by
      have := congrArg Prod.fst h
      simpa [Tool.applyPub] using this.symm
    subst ht'
    exact Tool.step_record_pub t _ true _ hinv rfl
  | restore =>
    rcases hd : t.dummyContext.applyOp Op.restore with ⟨d, e⟩
    cases e with
    | some e =>
      unfold Tool.applyPub at h
      rw [hd] at h
      simp at h
    | none =>
      unfold Tool.applyPub at h
      rw [hd] at h
      have ht' : t' = ({ t with requiresNewFirstPage := true, dummyContext := d } : Tool).addInstruction .restore := by
        have := congrArg Prod.fst h
        simpa using this.symm
      subst ht'
      exact Tool.step_record_pub t _ true d hinv rfl
  | newPage w0 h0 =>
    have hres : t.newPageImpl w0 h0 = (t', none) := by
      simpa [Tool.applyPub] using h
    obtain ⟨i1, i2, i3, _⟩ := Tool.newPageImpl_step t w0 h0 t' hinv hres
    refine ⟨i1, fun _ => i2, ?_, Or.inl i3⟩
    intro hp
    rw [i2] at hp
    exact absurd hp (by simp)
  | size w0 h0 =>
    unfold Tool.applyPub at h
    cases hsp : t.isSinglePage with
    | true =>
      rw [hsp] at h
      simp at h
    | false =>
      rw [hsp] at h
      simp only [Bool.false_eq_true, if_false] at h
      cases hemp : ({ t with width := some w0, height := some (h0.getD w0), isSinglePage := false } : Tool).instructionsStack.isEmpty with
      | false =>
        rw [hemp] at h
        simp at h
      | true =>
        rw [hemp] at h
        simp only [if_true] at h
        have hinvt1 : ToolInv ({ t with width := some w0, height := some (h0.getD w0), isSinglePage := false } : Tool) := hinv
        obtain ⟨i1, i2, i3, _⟩ := Tool.newPageImpl_step _ (some w0)
          (some (h0.getD w0)) t' hinvt1 h
        refine ⟨i1, fun _ => i2, ?_, ?_⟩
        · intro hp
          rw [i2] at hp
          exact absurd hp (by simp)
        · left
          rw [i3]
          rfl

theorem Tool.runPubTr_cons_ok {t t1 : Tool} {op : PubOp} {rest : List PubOp}
    (h : t.applyPub op = (t1, none)) :
    t.runPubTr (op :: rest) =
      (t1.runPubTr rest).map (fun p => (p.1, t.recordedInstr op :: p.2)) := by
  simp [Tool.runPubTr, h]

theorem Tool.runPubTr_cons_err {t t1 : Tool} {op : PubOp} {e : Err}
    {rest : List PubOp} (h : t.applyPub op = (t1, some e)) :
    t.runPubTr (op :: rest) = none := by
  simp [Tool.runPubTr, h]

theorem ToolInv_init : ToolInv Tool.init :=
  ⟨by intro _; simp [Tool.init], by intro _ g hg; simp [Tool.init] at hg,
   by intro g hg; simp [Tool.init] at hg,
   by intro g hg; simp [Tool.init] at hg⟩

/-- Running a list of public calls from any invariant-satisfying session
state: the invariant still holds, every call recorded exactly one
instruction, a page never disappears, and the flattened log grows by the
recorded trace, with at most one synthetic `newPage` inserted at the very
front (only when no page existed, using the width/height configured at the
start). -/
theorem Tool.runPubTr_master (ops : List PubOp) : ∀ (t t' : Tool)
    (tr : List Instr), ToolInv t → t.runPubTr ops = some (t', tr) →
    ToolInv t' ∧ tr.length = ops.length ∧
    (t.hasPage = true → t'.hasPage = true) ∧
    (t'.instructionsStack.flatten = t.instructionsStack.flatten ++ tr ∨
      (t.hasPage = false ∧ t'.hasPage = true ∧
        t'.instructionsStack.flatten =
          Instr.newPage (some t.widthV) (some t.heightV) ::
            (t.instructionsStack.flatten ++ tr))) := by
  induction ops with
  | nil =>
    intro t t' tr hinv h
    simp [Tool.runPubTr] at h
    obtain ⟨h1, h2⟩ := h
    subst h1
    subst h2
    exact ⟨hinv, rfl, fun hp => hp, Or.inl (by simp)⟩
  | cons op rest ih =>
    intro t t' tr hinv h
    rcases happ : t.applyPub op with ⟨t1, e⟩
    cases e with
    | some e =>
      rw [Tool.runPubTr_cons_err happ] at h
      exact absurd h (by simp)
    | none =>
      rw [Tool.runPubTr_cons_ok happ] at h
      rcases hmid : t1.runPubTr rest with _ | p
      · rw [hmid] at h
        exact absurd h (by simp)
      · rcases p with ⟨tf, trf⟩
        rw [hmid] at h
        simp only [Option.map, Option.some_inj, Prod.mk.injEq] at h
        obtain ⟨h1, h2⟩ := h
        subst h1
        subst h2
        obtain ⟨sInv, sMono, sWH, sFlat⟩ :=
          Tool.applyPub_step t t1 op hinv happ
        obtain ⟨mInv, mLen, mMono, mFlat⟩ := ih t1 tf trf sInv hmid
        refine ⟨mInv, by simp [mLen], fun hp => mMono (sMono hp), ?_⟩
        rcases sFlat with hf1 | ⟨hp0, hp1, hf1⟩
        · rcases mFlat with hf2 | ⟨hq0, hq1, hf2⟩
          · left
            rw [hf2, hf1]
            simp
          · right
            have htp : t.hasPage = false := by
              cases hpc : t.hasPage
              · rfl
              · rw [sMono hpc] at hq0
                exact absurd hq0 (by simp)
            have hww : t1.widthV = t.widthV := by
              unfold Tool.widthV
              rw [(sWH hq0).1]
            have hhh : t1.heightV = t.heightV := by
              unfold Tool.heightV
              rw [(sWH hq0).2]
            refine ⟨htp, hq1, ?_⟩
            rw [hf2, hww, hhh, hf1]
            simp
        · rcases mFlat with hf2 | ⟨hq0, _, _⟩
          · right
            refine ⟨hp0, mMono hp1, ?_⟩
            rw [hf2, hf1]
            simp
          · rw [hp1] at hq0
            exact absurd hq0 (by simp)

/-- `_drawInContext` invokes the backend once per recorded instruction, in
log order: the backend trace is extended by the flattened log. -/
theorem Tool.drawInContext_eq (t : Tool) (b : List Instr) :
    t.drawInContext b = b ++ t.instructionsStack.flatten := by
  have hgrp : ∀ (g acc : List Instr),
      g.foldl (fun a i => a ++ [i]) acc = acc ++ g := by
    intro g
    induction g with
    | nil => intro acc; simp
    | cons x xs ihg =>
      intro acc
      simp only [List.foldl_cons, ihg]
      simp
  have hfun : (fun (acc grp : List Instr) =>
      grp.foldl (fun acc2 i => acc2 ++ [i]) acc) =
      fun acc grp => acc ++ grp := by
    funext acc grp
    exact hgrp grp acc
  have houter : ∀ (S : List (List Instr)) (b2 : List Instr),
      S.foldl (fun acc grp => acc ++ grp) b2 = b2 ++ S.flatten := by
    intro S
    induction S with
    | nil => intro b2; simp
    | cons g r ihs =>
      intro b2
      simp [ihs]
  unfold Tool.drawInContext
  rw [hfun, houter]

/-- In a log whose groups are all nonempty, the head of the flattened log is
the head of the first page group. -/
theorem flatten_head_first_group (S : List (List Instr))
    (h4 : ∀ g ∈ S, g ≠ []) (hne : S.flatten ≠ []) :
    ∃ g0 r2, S = g0 :: r2 ∧ g0.head? = S.flatten.head? := by
  cases S with
  | nil => simp at hne
  | cons g0 r2 =>
    have hg0 : g0 ≠ [] := h4 g0 (List.mem_cons_self _ _)
    rcases hg : g0 with _ | ⟨a, l⟩
    · exact absurd hg hg0
    · exact ⟨a :: l, r2, rfl, by simp⟩

theorem ToolInv_single_page_group (t : Tool) (hp : t.hasPage = true)
    (w h : Option Q) (i : Instr)
    (hs : t.instructionsStack = [[Instr.newPage w h, i]]) : ToolInv t := by
  refine ⟨?_, ?_, ?_, ?_⟩
  · intro h2
    rw [hp] at h2
    exact absurd h2 (by simp)
  · intro h2
    rw [hp] at h2
    exact absurd h2 (by simp)
  · intro g hg _
    rw [hs] at hg
    simp at hg
    subst hg
    exact ⟨w, h, rfl⟩
  · intro g hg
    rw [hs] at hg
    simp at hg
    subst hg
    simp

/-- A drawing call as the first call of a fresh session records the
synthetic default first page in front of its own instruction. -/
theorem Tool.drawing_from_fresh (op : PubOp) (t1 : Tool)
    (hdraw : op.isDrawing = true) (h : Tool.init.applyPub op = (t1, none)) :
    ToolInv t1 ∧ t1.hasPage = true ∧
    t1.instructionsStack.flatten =
      [Instr.newPage (some 1000) (some 1000), Tool.init.recordedInstr op] := by
  cases op with
  | rect x y w0 h0 =>
    have ht1 : t1 = ({ Tool.init with requiresNewFirstPage := true, dummyContext := Tool.init.dummyContext } : Tool).addInstruction (.rect x y w0 h0) := by
      have := congrArg Prod.fst h
      simpa [Tool.applyPub] using this.symm
    subst ht1
    rw [Tool.addInstruction_synth_nil_shape ({ Tool.init with requiresNewFirstPage := true, dummyContext := Tool.init.dummyContext } : Tool) (Instr.rect x y w0 h0) rfl rfl rfl]
    exact ⟨ToolInv_single_page_group _ rfl _ _ _ rfl, rfl, rfl⟩
  | oval x y w0 h0 =>
    have ht1 : t1 = ({ Tool.init with requiresNewFirstPage := true, dummyContext := Tool.init.dummyContext } : Tool).addInstruction (.oval x y w0 h0) := by
      have := congrArg Prod.fst h
      simpa [Tool.applyPub] using this.symm
    subst ht1
    rw [Tool.addInstruction_synth_nil_shape ({ Tool.init with requiresNewFirstPage := true, dummyContext := Tool.init.dummyContext } : Tool) (Instr.oval x y w0 h0) rfl rfl rfl]
    exact ⟨ToolInv_single_page_group _ rfl _ _ _ rfl, rfl, rfl⟩
  | fill r g b a =>
    have ht1 : t1 = ({ Tool.init with requiresNewFirstPage := true, dummyContext := Tool.init.dummyContext } : Tool).addInstruction (.fill r g b a) := by
      have := congrArg Prod.fst h
      simpa [Tool.applyPub] using this.symm
    subst ht1
    rw [Tool.addInstruction_synth_nil_shape ({ Tool.init with requiresNewFirstPage := true, dummyContext := Tool.init.dummyContext } : Tool) (Instr.fill r g b a) rfl rfl rfl]
    exact ⟨ToolInv_single_page_group _ rfl _ _ _ rfl, rfl, rfl⟩
  | stroke r g b a =>
    have ht1 : t1 = ({ Tool.init with requiresNewFirstPage := true, dummyContext := Tool.init.dummyContext } : Tool).addInstruction (.stroke r g b a) := by
      have := congrArg Prod.fst h
      simpa [Tool.applyPub] using this.symm
    subst ht1
    rw [Tool.addInstruction_synth_nil_shape ({ Tool.init with requiresNewFirstPage := true, dummyContext := Tool.init.dummyContext } : Tool) (Instr.stroke r g b a) rfl rfl rfl]
    exact ⟨ToolInv_single_page_group _ rfl _ _ _ rfl, rfl, rfl⟩
  | cmykFill c m y k a =>
    have ht1 : t1 = ({ Tool.init with requiresNewFirstPage := true, dummyContext := Tool.init.dummyContext } : Tool).addInstruction (.cmykFill c m y k a) := by
      have := congrArg Prod.fst h
      simpa [Tool.applyPub] using this.symm
    subst ht1
    rw [Tool.addInstruction_synth_nil_shape ({ Tool.init with requiresNewFirstPage := true, dummyContext := Tool.init.dummyContext } : Tool) (Instr.cmykFill c m y k a) rfl rfl rfl]
    exact ⟨ToolInv_single_page_group _ rfl _ _ _ rfl, rfl, rfl⟩
  | cmykStroke c m y k a =>
    have ht1 : t1 = ({ Tool.init with requiresNewFirstPage := true, dummyContext := Tool.init.dummyContext } : Tool).addInstruction (.cmykStroke c m y k a) := by
      have := congrArg Prod.fst h
      simpa [Tool.applyPub] using this.symm
    subst ht1
    rw [Tool.addInstruction_synth_nil_shape ({ Tool.init with requiresNewFirstPage := true, dummyContext := Tool.init.dummyContext } : Tool) (Instr.cmykStroke c m y k a) rfl rfl rfl]
    exact ⟨ToolInv_single_page_group _ rfl _ _ _ rfl, rfl, rfl⟩
  | frameDuration seconds =>
    have ht1 : t1 = ({ Tool.init with requiresNewFirstPage := true, dummyContext := Tool.init.dummyContext } : Tool).addInstruction (.frameDuration seconds) := by
      have := congrArg Prod.fst h
      simpa [Tool.applyPub] using this.symm
    subst ht1
    rw [Tool.addInstruction_synth_nil_shape ({ Tool.init with requiresNewFirstPage := true, dummyContext := Tool.init.dummyContext } : Tool) (Instr.frameDuration seconds) rfl rfl rfl]
    exact ⟨ToolInv_single_page_group _ rfl _ _ _ rfl, rfl, rfl⟩
  | save =>
    have ht1 : t1 = ({ Tool.init with requiresNewFirstPage := true, dummyContext := (Tool.init.dummyContext.applyOp Op.save).1 } : Tool).addInstruction .save := by
      have := congrArg Prod.fst h
      simpa [Tool.applyPub] using this.symm
    subst ht1
    rw [Tool.addInstruction_synth_nil_shape ({ Tool.init with requiresNewFirstPage := true, dummyContext := (Tool.init.dummyContext.applyOp Op.save).1 } : Tool) (Instr.save) rfl rfl rfl]
    exact ⟨ToolInv_single_page_group _ rfl _ _ _ rfl, rfl, rfl⟩
  | restore =>
    have hres : Tool.init.applyPub PubOp.restore =
        (Tool.init, some Err.drawBotErr) := rfl
    rw [hres] at h
    simp at h
  | newPage w0 h0 => simp [PubOp.isDrawing] at hdraw
  | size w0 h0 => simp [PubOp.isDrawing] at hdraw
  | fontSize v => simp [PubOp.isDrawing] at hdraw

/-- `newPage` (public) always succeeds outside a single-page context and
appends exactly one fresh singleton page group. -/
theorem Tool.newPageImpl_shape (t : Tool) (w h : Option Q)
    (hsp : t.isSinglePage = false) :
    ∃ w2 h2 : Option Q, t.newPageImpl w h =
      (({ t with width := w2, height := h2, hasPage := true, dummyContext := BCtx.init, isSinglePage := false, instructionsStack := t.instructionsStack ++ [[Instr.newPage w2 h2]] } : Tool), none) := by
  unfold Tool.newPageImpl
  rw [hsp]
  simp only [Bool.false_eq_true, if_false]
  set wh := if (decide (w = none) && decide (h = none)) = true
    then (some t.widthV, some t.heightV) else (w, h) with hwh
  refine ⟨wh.1, wh.2, ?_⟩
  rw [Tool.addInstruction_newPage_shape ({ t with dummyContext := BCtx.init, width := wh.1, height := wh.2, hasPage := true, isSinglePage := false } : Tool) (Instr.newPage wh.1 wh.2) rfl (by simp)]

/-- C2: `restore()` on an empty saved-state stack always raises the
unbalanced-restore `DrawBotError` and mutates nothing: at the context level
the state is untouched, and at the tool level validation fails before
recording, so the session state (including the instruction log) is returned
unchanged. -/
theorem C2_unbalanced_restore :
    (∀ ctx : BCtx, ctx.stack = [] →
      ctx.applyOp Op.restore = (ctx, some Err.drawBotErr)) ∧
    (∀ t : Tool, t.dummyContext.stack = [] →
      t.applyPub PubOp.restore = (t, some Err.drawBotErr)) := by
  constructor
  · intro ctx h
    simp [BCtx.applyOp, h]
  · intro t h
    have h1 : t.dummyContext.applyOp Op.restore =
        (t.dummyContext, some Err.drawBotErr) := by
      simp [BCtx.applyOp, h]
    unfold Tool.applyPub
    rw [h1]

/-- Witness for C2 at a fresh context and a fresh session. -/
theorem C2_unbalanced_restore_witness :
    BCtx.init.applyOp Op.restore = (BCtx.init, some Err.drawBotErr) ∧
    Tool.init.applyPub PubOp.restore = (Tool.init, some Err.drawBotErr) :=
  ⟨C2_unbalanced_restore.1 BCtx.init rfl, C2_unbalanced_restore.2 Tool.init rfl⟩

/-- C3: when a first page is required and none exists, recording a drawing
instruction inserts a synthetic `newPage(width(), height())` — the last
explicitly configured size or the 1000 by 1000 fallback — at the front of
the (single) page group and sets the page flag, so the insertion happens at
most once per session; in particular the first qualifying call of a fresh
session makes the log start with `newPage(1000, 1000)` followed by exactly
the recorded calls. -/
theorem C3_synthetic_first_page :
    (∀ (t : Tool) (i : Instr),
      (t.requiresNewFirstPage && !t.hasPage) = true → i.isNewPage = false →
      t.instructionsStack.length ≤ 1 →
      (t.addInstruction i).instructionsStack.flatten =
        Instr.newPage (some t.widthV) (some t.heightV) ::
          (t.instructionsStack.flatten ++ [i]) ∧
      (t.addInstruction i).hasPage = true) ∧
    (∀ (op0 : PubOp) (ops : List PubOp) (t' : Tool) (tr : List Instr),
      op0.isDrawing = true →
      Tool.init.runPubTr (op0 :: ops) = some (t', tr) →
      t'.instructionsStack.flatten =
        Instr.newPage (some 1000) (some 1000) :: tr ∧
      ∃ g0 r2, t'.instructionsStack = g0 :: r2 ∧
        g0.head? = some (Instr.newPage (some 1000) (some 1000))) := by
  constructor
  · intro t i hcond hnp hlen
    rcases hs : t.instructionsStack with _ | ⟨g0, rest0⟩
    · rw [Tool.addInstruction_synth_nil_shape t i hnp hs hcond]
      exact ⟨by simp, rfl⟩
    · rcases rest0 with _ | ⟨g1, r1⟩
      · rw [Tool.addInstruction_synth_one_shape t i g0 hnp hs hcond]
        exact ⟨by simp, rfl⟩
      · rw [hs] at hlen
        simp at hlen
  · intro op0 ops t' tr hdraw hrun
    rcases happ : Tool.init.applyPub op0 with ⟨t1, e⟩
    cases e with
    | some e =>
      rw [Tool.runPubTr_cons_err happ] at hrun
      exact absurd hrun (by simp)
    | none =>
      rw [Tool.runPubTr_cons_ok happ] at hrun
      rcases hmid : t1.runPubTr ops with _ | p
      · rw [hmid] at hrun
        exact absurd hrun (by simp)
      · rcases p with ⟨tf, trf⟩
        rw [hmid] at hrun
        simp only [Option.map, Option.some_inj, Prod.mk.injEq] at hrun
        obtain ⟨h1, h2⟩ := hrun
        subst h1
        subst h2
        obtain ⟨dInv, dHP, dFlat⟩ :=
          Tool.drawing_from_fresh op0 t1 hdraw happ
        obtain ⟨mInv, _, _, mFlat⟩ :=
          Tool.runPubTr_master ops t1 tf trf dInv hmid
        have hflat : tf.instructionsStack.flatten =
            Instr.newPage (some 1000) (some 1000) ::
              (Tool.init.recordedInstr op0 :: trf) := by
          rcases mFlat with hf | ⟨hq0, _, _⟩
          · rw [hf, dFlat]
            rfl
          · rw [dHP] at hq0
            exact absurd hq0 (by simp)
        refine ⟨hflat, ?_⟩
        have hne : tf.instructionsStack.flatten ≠ [] := by
          rw [hflat]
          simp
        obtain ⟨g0, r2, hS, hhead⟩ := flatten_head_first_group
          tf.instructionsStack mInv.2.2.2 hne
        refine ⟨g0, r2, hS, ?_⟩
        rw [hhead, hflat]
        rfl

/-- Witness for C3: `rect` as the very first call of a fresh session. -/
theorem C3_synthetic_first_page_witness :
    ∃ (t' : Tool) (tr : List Instr),
      Tool.init.runPubTr [PubOp.rect 10 10 100 100] = some (t', tr) ∧
      t'.instructionsStack.flatten =
        Instr.newPage (some 1000) (some 1000) :: tr := by
  rcases h : Tool.init.runPubTr [PubOp.rect 10 10 100 100] with _ | p
  · exact absurd h (by decide)
  · exact ⟨p.1, p.2,
      rfl, (C3_synthetic_first_page.2 (PubOp.rect 10 10 100 100) [] p.1 p.2
        rfl h).1⟩

/-- C5: recording `newPage` always opens a new page group (even when the
current group is empty), `pageCount()` is the number of recorded groups
including an in-progress one, and the spec example
`rect(...); newPage(200, 300); oval(...)` yields two groups each holding
exactly its own `newPage` followed by the calls issued after it. -/
theorem C5_newPage_starts_group :
    (∀ (t : Tool) (w h : Option Q), t.isSinglePage = false →
      (t.applyPub (PubOp.newPage w h)).2 = none ∧
      (t.applyPub (PubOp.newPage w h)).1.instructionsStack.length =
        t.instructionsStack.length + 1 ∧
      (t.applyPub (PubOp.newPage w h)).1.pageCount = t.pageCount + 1) ∧
    (∀ t : Tool, t.pageCount = t.instructionsStack.length) ∧
    ((Tool.init.runPub [PubOp.rect 10 10 100 100,
        PubOp.newPage (some 200) (some 300),
        PubOp.oval 20 20 50 50]).map Tool.instructionsStack =
      some [[Instr.newPage (some 1000) (some 1000), Instr.rect 10 10 100 100],
        [Instr.newPage (some 200) (some 300), Instr.oval 20 20 50 50]] ∧
     (Tool.init.runPub [PubOp.rect 10 10 100 100,
        PubOp.newPage (some 200) (some 300),
        PubOp.oval 20 20 50 50]).map Tool.pageCount = some 2) := by
  refine ⟨?_, fun _ => rfl, by decide, by decide⟩
  intro t w h hsp
  obtain ⟨w2, h2, heq⟩ := Tool.newPageImpl_shape t w h hsp
  have happ : t.applyPub (PubOp.newPage w h) = t.newPageImpl w h := rfl
  rw [happ, heq]
  simp [Tool.pageCount]

/-- Witness for C5 at a fresh session. -/
theorem C5_newPage_starts_group_witness :
    (Tool.init.applyPub (PubOp.newPage (some 200) (some 300))).2 = none ∧
    (Tool.init.applyPub
      (PubOp.newPage (some 200) (some 300))).1.pageCount =
        Tool.init.pageCount + 1 := by
  have h := C5_newPage_starts_group.1 Tool.init (some 200) (some 300) rfl
  exact ⟨h.1, h.2.2⟩

/-- C6: replaying a log produced by `N` successful public calls invokes the
backend exactly once per recorded instruction, in order: the replayed trace
is the issued call sequence, prefixed by the synthetic first page when one
was inserted, so it has length `N` or `N + 1`; replay is a pure reader of
the log (its output depends only on the log and the starting backend
trace), so replaying twice against two fresh backends gives identical
sequences. -/
theorem C6_replay_roundtrip (ops : List PubOp) (t' : Tool)
    (tr : List Instr) (h : Tool.init.runPubTr ops = some (t', tr)) :
    tr.length = ops.length ∧
    (∀ b : List Instr, t'.drawInContext b =
      b ++ t'.instructionsStack.flatten) ∧
    (t'.instructionsStack.flatten = tr ∨
      t'.instructionsStack.flatten =
        Instr.newPage (some 1000) (some 1000) :: tr) ∧
    ((t'.drawInContext []).length = ops.length ∨
      (t'.drawInContext []).length = ops.length + 1) := by
  obtain ⟨_, mLen, _, mFlat⟩ :=
    Tool.runPubTr_master ops Tool.init t' tr ToolInv_init h
  have hflat : t'.instructionsStack.flatten = tr ∨
      t'.instructionsStack.flatten =
        Instr.newPage (some 1000) (some 1000) :: tr := by
    rcases mFlat with hf | ⟨_, _, hf⟩
    · left
      rw [hf]
      rfl
    · right
      rw [hf]
      rfl
  refine ⟨mLen, fun b => Tool.drawInContext_eq t' b, hflat, ?_⟩
  rw [Tool.drawInContext_eq t' []]
  rcases hflat with hf | hf
  · left
    rw [hf] at *
    simpa using mLen
  · right
    rw [hf]
    simp [mLen]

/-- Witness for C6: a one-call session replays as the synthetic page plus
the call. -/
theorem C6_replay_roundtrip_witness :
    ∃ (t' : Tool) (tr : List Instr),
      Tool.init.runPubTr [PubOp.rect 1 2 3 4] = some (t', tr) ∧
      tr.length = 1 ∧
      ((t'.drawInContext []).length = 1 ∨
        (t'.drawInContext []).length = 2) := by
  rcases h : Tool.init.runPubTr [PubOp.rect 1 2 3 4] with _ | p
  · exact absurd h (by decide)
  · obtain ⟨hl, _, _, hlen⟩ := C6_replay_roundtrip [PubOp.rect 1 2 3 4]
      p.1 p.2 h
    exact ⟨p.1, p.2, rfl, hl, hlen⟩

/-- C8: in every reachable session, `pages()` returns exactly the page
groups whose first instruction is `newPage`, in recorded order, while
`pageCount()` counts every group; a group of configuration-only calls
recorded before any page exists (for example a lone `fontSize`) is counted
by `pageCount()` but excluded from `pages()`. -/
theorem C8_pages_filter :
    (∀ (ops : List PubOp) (t : Tool), Tool.init.runPub ops = some t →
      t.pagesOf = t.instructionsStack.filter headIsNewPage ∧
      t.pageCount = t.instructionsStack.length) ∧
    ((Tool.init.runPub [PubOp.fontSize 12]).map Tool.pagesOf = some [] ∧
     (Tool.init.runPub [PubOp.fontSize 12]).map Tool.pageCount = some 1) := by
  refine ⟨?_, by decide, by decide⟩
  intro ops t h
  unfold Tool.runPub at h
  rcases hmid : Tool.init.runPubTr ops with _ | p
  · rw [hmid] at h
    exact absurd h (by simp)
  · rcases p with ⟨tf, trf⟩
    rw [hmid] at h
    simp only [Option.map, Option.some_inj] at h
    subst h
    obtain ⟨⟨_, _, inv3, inv4⟩, _, _, _⟩ :=
      Tool.runPubTr_master ops Tool.init tf trf ToolInv_init hmid
    refine ⟨?_, rfl⟩
    unfold Tool.pagesOf
    apply List.filter_congr
    intro g hg
    cases hany : g.any Instr.isNewPage with
    | false =>
      have hne := inv4 g hg
      rcases hgg : g with _ | ⟨a, l⟩
      · exact absurd hgg hne
      · rw [hgg] at hany
        simp only [List.any_cons, Bool.or_eq_false_iff] at hany
        unfold headIsNewPage
        simp only [List.head?]
        exact hany.1.symm
    | true =>
      have hex : ∃ i ∈ g, i.isNewPage = true := by
        rcases List.any_eq_true.mp hany with ⟨j, hj, hjp⟩
        exact ⟨j, hj, hjp⟩
      obtain ⟨w2, h2, hh⟩ := inv3 g hg hex
      unfold headIsNewPage
      rw [hh]
      rfl

/-- Witness for C8: a session holding one configuration-only group. -/
theorem C8_pages_filter_witness :
    ∃ t : Tool, Tool.init.runPub [PubOp.fontSize 12] = some t ∧
      t.pagesOf = t.instructionsStack.filter headIsNewPage ∧
      t.pageCount = 1 := by
  rcases h : Tool.init.runPub [PubOp.fontSize 12] with _ | t
  · exact absurd h (by decide)
  · obtain ⟨h1, h2⟩ := C8_pages_filter.1 [PubOp.fontSize 12] t h
    refine ⟨t, rfl, h1, ?_⟩
    rw [h2]
    have := congrArg (Option.map Tool.pageCount) h
    rw [C8_pages_filter.2.2] at this
    simpa [Tool.pageCount] using this.symm

/-- C10: `size(w, h)` after drawing has begun (nonempty instruction log)
raises a `DrawBotError`, but only after overwriting the stored width and
height, so the failed call still changes what `width()`/`height()` return
and the dimensions a later argument-less `newPage()` (or synthetic first
page) would record. -/
theorem C10_size_after_drawing (t : Tool) (w : Q) (h : Option Q)
    (hne : t.instructionsStack ≠ []) (hsp : t.isSinglePage = false) :
    t.applyPub (PubOp.size w h) =
      ({ t with width := some w, height := some (h.getD w) },
        some Err.drawBotErr) ∧
    ({ t with width := some w, height := some (h.getD w) } : Tool).widthV
      = w ∧
    ({ t with width := some w, height := some (h.getD w) } : Tool).heightV
      = h.getD w ∧
    Tool.recordedInstr
      { t with width := some w, height := some (h.getD w) }
      (PubOp.newPage none none) =
        Instr.newPage (some w) (some (h.getD w)) := by
  refine ⟨?_, rfl, rfl, rfl⟩
  unfold Tool.applyPub
  rw [hsp]
  simp only [Bool.false_eq_true, if_false]
  have hemp : ({ t with width := some w, height := some (h.getD w) } :
      Tool).instructionsStack.isEmpty = false := by
    show t.instructionsStack.isEmpty = false
    rcases h2 : t.instructionsStack with _ | ⟨a, r⟩
    · exact absurd h2 hne
    · rfl
  rw [hemp]
  simp

/-- Witness for C10: `rect` then `size` on a fresh session. -/
theorem C10_size_after_drawing_witness :
    ((Tool.init.applyPub (PubOp.rect 0 0 10 10)).1.applyPub
      (PubOp.size 200 (some 300))).2 = some Err.drawBotErr ∧
    ((Tool.init.applyPub (PubOp.rect 0 0 10 10)).1.applyPub
      (PubOp.size 200 (some 300))).1.width = some 200 ∧
    ((Tool.init.applyPub (PubOp.rect 0 0 10 10)).1.applyPub
      (PubOp.size 200 (some 300))).1.widthV = 200 := by
  have h := C10_size_after_drawing
    (Tool.init.applyPub (PubOp.rect 0 0 10 10)).1 200 (some 300)
    (by decide) (by decide)
  exact ⟨by rw [h.1], by rw [h.1], by rw [h.1]; exact h.2.1⟩

end DrawBot
